import Mathlib

/-!
Verification development for the runpod-worker-comfy job handler
(`src/rp_handler.py`). The Python code is shallowly embedded: JSON-like
Python values become the inductive `JVal`, dictionary/attribute operations
become explicit `Except`-valued functions (an `Except.error` models a raised
Python exception), and every external effect (HTTP requests, filesystem,
clock, environment variables) is supplied by an explicit environment
structure `Env` together with a trace of `Event`s recording the calls made.
-/

/-- Python/JSON values as manipulated by `rp_handler.py`: `null` is Python
`None`, `obj` is a `dict` with string keys in insertion order, `arr` is a
`list`. -/
inductive JVal where
  | null : JVal
  | bool (b : Bool) : JVal
  | num (n : Int) : JVal
  | str (s : String) : JVal
  | arr (xs : List JVal) : JVal
  | obj (fs : List (String × JVal)) : JVal

mutual

/-- Structural equality on `JVal`, modelling Python `==` on JSON data
(used by the `in` membership operator on lists). -/
def jvalEq : JVal → JVal → Bool
  | .null, .null => true
  | .bool a, .bool b => a = b
  | .num a, .num b => a = b
  | .str a, .str b => a = b
  | .arr xs, .arr ys => jvalListEq xs ys
  | .obj fs, .obj gs => jvalFieldsEq fs gs
  | _, _ => false

/-- Pointwise `jvalEq` on lists. -/
def jvalListEq : List JVal → List JVal → Bool
  | [], [] => true
  | x :: xs, y :: ys => jvalEq x y && jvalListEq xs ys
  | _, _ => false

/-- Pointwise `jvalEq` on field lists. -/
def jvalFieldsEq : List (String × JVal) → List (String × JVal) → Bool
  | [], [] => true
  | (k, v) :: fs, (k2, v2) :: gs => k = k2 && jvalEq v v2 && jvalFieldsEq fs gs
  | _, _ => false

end

/-- First-occurrence lookup in an ordered field list (Python `dict` access;
keys are unique in a real `dict`, so first-occurrence lookup is faithful). -/
def lookupF : List (String × JVal) → String → Option JVal
  | [], _ => none
  | (k, v) :: rest, key => if k = key then some v else lookupF rest key

/-- Pure field lookup on a `JVal` (no exception modelling). -/
def JVal.get? : JVal → String → Option JVal
  | .obj fs, k => lookupF fs k
  | _, _ => none

/-- Python truthiness (`bool(x)`): `None`, `False`, `0`, `""`, `[]`, `{}`
are falsy, everything else is truthy. -/
def truthy : JVal → Bool
  | .null => false
  | .bool b => b
  | .num n => n != 0
  | .str s => s ≠ ""
  | .arr xs => !xs.isEmpty
  | .obj fs => !fs.isEmpty

/-- Whether `needle` occurs as a contiguous run inside `hay`
(Python `needle in haystack` for strings). -/
def isSubstr (needle : List Char) : List Char → Bool
  | [] => needle.isEmpty
  | c :: rest => needle.isPrefixOf (c :: rest) || isSubstr needle rest

/-- A raised Python exception, carrying a rendering of its message. -/
abbrev PyExc := String

/-- Rendering of a `JVal` inside a Python f-string (`f"... {v} ..."`).
Only the string case is exercised by the properties below; the other
cases are a schematic `repr`. -/
def pyShow : JVal → String
  | .null => "None"
  | .bool b => if b then "True" else "False"
  | .num n => toString n
  | .str s => s
  | .arr _ => "[...]"
  | .obj _ => "{...}"

/-- Python `v.get(k)`: `dict.get` with default `None`; raises
`AttributeError` when `v` is not a dict. -/
def pyGet : JVal → String → Except PyExc JVal
  | .obj fs, k => .ok ((lookupF fs k).getD .null)
  | _, _ => .error "AttributeError: no attribute get"

/-- Python `v.get(k, d)`: `dict.get` with an explicit default. -/
def pyGetD : JVal → String → JVal → Except PyExc JVal
  | .obj fs, k, d => .ok ((lookupF fs k).getD d)
  | _, _, _ => .error "AttributeError: no attribute get"

/-- Python `key in container`: key lookup for dicts (string-keyed, so
non-string hashable keys are simply absent and unhashable keys raise),
membership for lists, substring test for strings, `TypeError` otherwise. -/
def pyContainsV : JVal → JVal → Except PyExc Bool
  | .obj fs, .str k => .ok (lookupF fs k).isSome
  | .obj _, .num _ => .ok false
  | .obj _, .bool _ => .ok false
  | .obj _, .null => .ok false
  | .obj _, _ => .error "TypeError: unhashable type"
  | .arr xs, key => .ok (xs.any (fun x => jvalEq x key))
  | .str s, .str k => .ok (isSubstr k.toList s.toList)
  | .str _, _ => .error "TypeError: in <string> requires string"
  | _, _ => .error "TypeError: argument is not iterable"

/-- Python `container[key]` for a string key: dict lookup raising
`KeyError` when the key is missing (`str(KeyError(k))` is `"'k'"`), and
`TypeError` when the container is not a dict. -/
def pyIndexV : JVal → JVal → Except PyExc JVal
  | .obj fs, .str k =>
    match lookupF fs k with
    | some v => .ok v
    | none => .error ("\x27" ++ k ++ "\x27")
  | .obj _, _ => .error "KeyError"
  | _, _ => .error "TypeError: not subscriptable"

/-- Python iteration `for x in v`: list elements, dict keys, characters of
a string; `TypeError` otherwise. -/
def pyIterate : JVal → Except PyExc (List JVal)
  | .arr xs => .ok xs
  | .obj fs => .ok (fs.map (fun p => JVal.str p.1))
  | .str s => .ok (s.toList.map (fun c => JVal.str (String.mk [c])))
  | _ => .error "TypeError: not iterable"

/-- Coercion used where the Python code calls a `str` method
(`.startswith` / `.endswith`): raises `AttributeError` on non-strings. -/
def pyStr? : JVal → Except PyExc String
  | .str s => .ok s
  | _ => .error "AttributeError: no string method"

/-- Python dict assignment `d[k] = v`: replace the value at `k` in place
if the key is present, otherwise append the binding. -/
def setF : List (String × JVal) → String → JVal → List (String × JVal)
  | [], k, v => [(k, v)]
  | (k2, v2) :: rest, k, v =>
    if k2 = k then (k, v) :: rest else (k2, v2) :: setF rest k v

/-- Data-URL stripping as in `rp_handler.py` (both call sites, lines
176-181 and 357-362): when the string starts with `"data:"` and contains
a comma, slice off everything up to and including the first comma
(`image_data[image_data.find(",") + 1:]`); otherwise the string is kept
unchanged. -/
def stripDataUrlL (cs : List Char) : List Char :=
  if ("data:".toList).isPrefixOf cs then
    match cs.findIdx? (fun c => c = ',') with
    | some i => cs.drop (i + 1)
    | none => cs
  else cs

/-- `stripDataUrlL` on `String`. -/
def stripDataUrl (s : String) : String := String.mk (stripDataUrlL s.toList)

/-- Characters of the standard base64 alphabet. -/
def isB64Char (c : Char) : Bool := c.isAlpha || c.isDigit || c = '+' || c = '/'

/-- Success predicate of Python `base64.b64decode` (default
`validate=False`, i.e. `binascii.a2b_base64`): characters outside the
alphabet and `=` are discarded, then the remaining length must be a
multiple of four with `=` only as the final one or two characters;
otherwise `binascii.Error` (incorrect padding) is raised. -/
def b64decodeOk (s : String) : Bool :=
  let cs := s.toList.filter (fun c => isB64Char c || c = '=')
  let pad := (cs.reverse.takeWhile (fun c => c = '=')).length
  cs.length % 4 = 0 && pad ≤ 2 &&
    (cs.take (cs.length - pad)).all (fun c => c ≠ '=')

/-- `str.startswith(p)` via character lists (kernel-computable). -/
def strStartsWith (s p : String) : Bool := p.toList.isPrefixOf s.toList

/-- `str.endswith(p)` via character lists (kernel-computable). -/
def strEndsWith (s p : String) : Bool := p.toList.isSuffixOf s.toList

/-- `os.path.join` for two components as exercised here: an absolute
second component replaces the first, otherwise the components are glued
with exactly one `/` separator. -/
def pjoin (a b : String) : String :=
  if strStartsWith b "/" then b
  else if a = "" || strEndsWith a "/" then a ++ b
  else a ++ "/" ++ b

/-- `os.path.join(base, sub, name)`. -/
def pjoin3 (a b c : String) : String := pjoin (pjoin a b) c

/-- `WORKFLOW_DIR` (line 31). -/
def WORKFLOW_DIR : String := "/runpod-volume/workflows"

/-- `COMFY_API_AVAILABLE_MAX_RETRIES` (line 20). -/
def COMFY_API_AVAILABLE_MAX_RETRIES : Nat := 500

/-- One observable external call made by the handler. -/
inductive Event where
  | probeGet (attempt : Nat) : Event
  | uploadPost (name : JVal) (data : String) : Event
  | queuePost (wf : JVal) : Event
  | historyGet (attempt : Nat) : Event
  | fsExists (path : String) : Event
  | fsWalk : Event
  | s3Upload (jobId : String) (path : String) : Event
  | fileRead (path : String) : Event

/-- The external world of `rp_handler.py`: JSON parsing, the workflow
catalog on disk, the ComfyUI HTTP endpoints, the output directory, the
clock and the environment-driven configuration.  The liveness probe
(`requests.get` in `check_server`) is passed to `handler` separately. -/
structure Env where
  /-- `json.loads` on a string input: `none` models `JSONDecodeError`. -/
  jsonParse : String → Option JVal
  /-- `os.path.exists` on a workflow catalog path. -/
  wfExists : String → Bool
  /-- Reading and `json.loads`-ing a workflow file: `none` models a
  `JSONDecodeError` or any other read exception. -/
  wfLoad : String → Option JVal
  /-- Status code and body text of the k-th `POST /upload/image`
  (indexed by image position). -/
  uploadStatus : Nat → Nat × String
  /-- Result of `POST /prompt` (`queue_workflow`): the parsed response,
  or the exception raised by `urlopen`/`json.loads`. -/
  queueResult : Except PyExc JVal
  /-- Result of the k-th `GET /history/<id>` (`get_history`). -/
  fetchHistory : Nat → Except PyExc JVal
  /-- `COMFY_POLLING_MAX_RETRIES` (environment-configured, line 24). -/
  pollMax : Nat
  /-- `COMFY_OUTPUT_PATH` (environment-configured, line 268). -/
  outputPath : String
  /-- `os.path.exists` on an output image path. -/
  pathExists : String → Bool
  /-- `os.walk(COMFY_OUTPUT_PATH)`: the `(root, files)` pairs in walk
  order (`dirs` is unused by the code). -/
  walk : List (String × List String)
  /-- `time.time()` at the moment of the fallback scan (in seconds). -/
  now : Int
  /-- `os.path.getmtime` per path (in seconds). -/
  getmtime : String → Int
  /-- Whether `BUCKET_ENDPOINT_URL` is set (line 303). -/
  bucket : Bool
  /-- `rp_upload.upload_image(job_id, path)`: the resulting URL. -/
  s3Upload : String → String → String
  /-- `base64_encode(path)`: base64 of the file contents. -/
  fileB64 : String → String
  /-- `REFRESH_WORKER` (line 29). -/
  refreshWorker : Bool

/-- Python `v is None`. -/
def JVal.isNull : JVal → Bool
  | .null => true
  | _ => false

/-- Canonicalization chain of `load_workflow_by_name` (lines 58-69): a
dict without a `"prompt"` key is the workflow itself; a dict with
`"prompt"` is unwrapped to that value; otherwise (necessarily a non-dict)
the code probes `"input" in workflow_data and "workflow" in
workflow_data["input"]` — for a non-dict, `workflow_data["input"]` raises
`TypeError` whenever the membership test succeeds, and the membership
test itself raises on non-iterables — else the value is returned as-is.
A raised exception is caught by the enclosing `except` and turns the
whole load into `None`. -/
def canonWorkflow (wd : JVal) : Except PyExc JVal :=
  match wd with
  | .obj fs =>
    match lookupF fs "prompt" with
    | none => .ok (.obj fs)
    | some p => .ok p
  | _ => do
    let c1 ← pyContainsV wd (.str "input")
    if c1 then do
      let inner ← pyIndexV wd (.str "input")
      let c2 ← pyContainsV inner (.str "workflow")
      if c2 then pyIndexV inner (.str "workflow")
      else .ok wd
    else .ok wd

/-- `load_workflow_by_name` (lines 33-75): append `.json` if missing, look
the file up in `WORKFLOW_DIR`, parse it and canonicalize; a missing file,
a parse failure or any exception during canonicalization yields `none`. -/
def load_workflow_by_name (env : Env) (workflow_name : String) : Option JVal :=
  let name :=
    if strEndsWith workflow_name ".json" then workflow_name
    else workflow_name ++ ".json"
  let path := pjoin WORKFLOW_DIR name
  if !env.wfExists path then none
  else
    match env.wfLoad path with
    | none => none
    | some wd =>
      match canonWorkflow wd with
      | .ok w => some w
      | .error _ => none

/-- The validated data returned by `validate_input` on success:
`{"workflow": ..., "images": ...}` (the images slot is Python `None`,
i.e. `JVal.null`, when the input had no images). -/
structure Validated where
  workflow : JVal
  images : JVal

/-- The `(validated_data, error_message)` pair returned by
`validate_input`: exactly one side is populated. -/
inductive VResult where
  | ok (d : Validated) : VResult
  | err (msg : String) : VResult

/-- The generator test of line 115-117:
`all("name" in image and "image" in image for image in images)`, with
Python short-circuiting (`and`, and `all` stopping at the first `False`)
and with the `in` operator able to raise `TypeError`. -/
def checkImages : List JVal → Except PyExc Bool
  | [] => .ok true
  | x :: xs => do
    let h1 ← pyContainsV x (.str "name")
    if !h1 then .ok false
    else do
      let h2 ← pyContainsV x (.str "image")
      if !h2 then .ok false
      else checkImages xs

/-- The images check and final construction of `validate_input`
(lines 112-124), given the settled workflow value: `None` images are kept
as-is, a non-list or a list with an element missing the `name` or `image`
key is rejected, anything else is accepted. -/
def validateImages (workflow images : JVal) : Except PyExc VResult := do
  if images.isNull then .ok (.ok { workflow := workflow, images := images })
  else
    match images with
    | .arr xs => do
      let allOk ← checkImages xs
      if !allOk then
        .ok (.err "\x27images\x27 must be a list of objects with \x27name\x27 and \x27image\x27 keys")
      else .ok (.ok { workflow := workflow, images := images })
    | _ =>
      .ok (.err "\x27images\x27 must be a list of objects with \x27name\x27 and \x27image\x27 keys")

/-- `validate_input` (lines 77-124). -/
def validate_input (env : Env) (job_input : JVal) : Except PyExc VResult := do
  if job_input.isNull then .ok (.err "Please provide input")
  else do
    let ji ←
      match job_input with
      | .str s =>
        match env.jsonParse s with
        | none => return .err "Invalid JSON format in input"
        | some v => pure v
      | v => pure v
    let workflow ← pyGet ji "workflow"
    let workflow_name ← pyGet ji "workflow_name"
    if !truthy workflow && !truthy workflow_name then
      .ok (.err "Missing \x27workflow\x27 or \x27workflow_name\x27 parameter")
    else do
      let workflow ←
        if truthy workflow_name then do
          let wn ← pyStr? workflow_name
          match load_workflow_by_name env wn with
          | some w =>
            if !truthy w then
              return .err ("Could not load workflow: " ++ wn)
            else pure w
          | none => return .err ("Could not load workflow: " ++ wn)
        else pure workflow
      let images ← pyGet ji "images"
      validateImages workflow images

/-- The retry loop of `check_server` (lines 139-157), with the attempt
index threaded through and the remaining attempt count as fuel.  `probe i`
is the outcome of the i-th `requests.get`: `none` models a raised
`RequestException` (swallowed), `some c` a response with status code `c`.
Returns the boolean result together with the number of attempts made. -/
def check_serverAux (probe : Nat → Option Nat) (i : Nat) : Nat → Bool × Nat
  | 0 => (false, i)
  | rem + 1 =>
    match probe i with
    | some 200 => (true, i + 1)
    | _ => check_serverAux probe (i + 1) rem

/-- `check_server` (lines 126-157): true iff some attempt within the
budget returns HTTP 200; every transport error is swallowed. -/
def check_server (probe : Nat → Option Nat) (retries : Nat) : Bool :=
  (check_serverAux probe 0 retries).1

/-- The `"status"`/`"message"`/`"details"` dicts built by `upload_images`. -/
def uploadResultObj (status msg : String) (details : List String) : JVal :=
  .obj [("status", .str status), ("message", .str msg),
        ("details", .arr (details.map JVal.str))]

/-- The body of the per-image loop of `upload_images` (lines 172-200) for
one image at position `idx`: read `name` and `image` (a `KeyError`
propagates), strip a data-URL prefix (`.startswith` raises on a
non-string), then inside `try`: base64-decode (failure becomes a recorded
per-image error, no POST) and POST to `/upload/image` (non-200 becomes a
recorded per-image error).  Returns (success message?, error message?,
events). -/
def uploadOne (env : Env) (idx : Nat) (img : JVal) :
    Except PyExc (Option String × Option String × List Event) := do
  let name ← pyIndexV img (.str "name")
  let data ← pyIndexV img (.str "image")
  let dataS ← pyStr? data
  let stripped := stripDataUrl dataS
  if b64decodeOk stripped then
    let (code, text) := env.uploadStatus idx
    if code = 200 then
      .ok (some ("Successfully uploaded " ++ pyShow name), none,
           [.uploadPost name stripped])
    else
      .ok (none, some ("Error uploading " ++ pyShow name ++ ": " ++ text),
           [.uploadPost name stripped])
  else
    .ok (none, some ("Error decoding " ++ pyShow name ++ ": Invalid padding"),
         [])

/-- The whole image loop of `upload_images`, accumulating the `responses`
and `upload_errors` lists in order. -/
def uploadLoop (env : Env) (idx : Nat) :
    List JVal → Except PyExc (List String × List String × List Event)
  | [] => .ok ([], [], [])
  | img :: rest => do
    let (r, e, evs) ← uploadOne env idx img
    let (rs, es, evs2) ← uploadLoop env (idx + 1) rest
    .ok (r.toList ++ rs, e.toList ++ es, evs ++ evs2)

/-- `upload_images` (lines 160-215). -/
def upload_images (env : Env) (images : JVal) :
    Except PyExc (JVal × List Event) := do
  if !truthy images then
    .ok (uploadResultObj "success" "No images to upload" [], [])
  else do
    let imgs ← pyIterate images
    let (rs, es, evs) ← uploadLoop env 0 imgs
    if es.isEmpty then
      .ok (uploadResultObj "success" "All images uploaded successfully" rs, evs)
    else
      .ok (uploadResultObj "error" "Some images failed to upload" es, evs)

/-- The membership test `node_data.get("class_type") in
["LoadImageFromBase64", "Base64ToImage"]` of line 353. -/
def isBase64NodeType (ct : JVal) : Bool :=
  match ct with
  | .str s => s = "LoadImageFromBase64" || s = "Base64ToImage"
  | _ => false

/-- The node scan of the handler's injection block (lines 352-371): walk
the workflow items in order; at the first node whose `class_type` is in
the known set, take the first input image (`for image in images` with an
unconditional `break`), strip its data-URL prefix and assign
`workflow[node_id]["inputs"]["data"]`.  Returns `some (node_id, updated
node)` when an injection happened, `none` when no node matched (including
the vacuous case of an empty image list, where the scan continues).
A non-dict node raises `AttributeError` (`.get`), a matching node without
an `"inputs"` dict raises (`KeyError` / `TypeError`), a non-string image
value raises `AttributeError` (`.startswith`). -/
def scanNodes (images : JVal) :
    List (String × JVal) → Except PyExc (Option (String × JVal))
  | [] => .ok none
  | (nid, nd) :: rest =>
    match nd with
    | .obj nfs =>
      if isBase64NodeType ((lookupF nfs "class_type").getD .null) then do
        let imgs ← pyIterate images
        match imgs with
        | [] => scanNodes images rest
        | img :: _ => do
          let data ← pyIndexV img (.str "image")
          let s ← pyStr? data
          let stripped := stripDataUrl s
          match lookupF nfs "inputs" with
          | some (.obj ifs) =>
            .ok (some (nid,
              JVal.obj (setF nfs "inputs" (.obj (setF ifs "data" (.str stripped))))))
          | some _ => .error "TypeError: item assignment"
          | none => .error "\x27inputs\x27"
      else scanNodes images rest
    | _ => .error "AttributeError: no attribute get"

/-- Outcome of the image-injection/upload block: either continue the
pipeline with the (possibly updated) workflow, or return the uploader's
error dict as the job result (line 378). -/
inductive StageOut where
  | proceed (wf : JVal) : StageOut
  | abort (res : JVal) : StageOut

/-- The image-injection/upload block of `handler` (lines 350-378). -/
def imageStage (env : Env) (wf : JVal) (images : JVal) :
    Except PyExc (StageOut × List Event) := do
  if !truthy images then .ok (.proceed wf, [])
  else
    match wf with
    | .obj ws => do
      let found ← scanNodes images ws
      match found with
      | some (nid, nd) => .ok (.proceed (.obj (setF ws nid nd)), [])
      | none => do
        let (res, evs) ← upload_images env images
        let status ← pyIndexV res (.str "status")
        match status with
        | .str "error" => .ok (.abort res, evs)
        | _ => .ok (.proceed (.obj ws), evs)
    | _ => .error "AttributeError: no attribute items"

/-- The completion test of line 399:
`prompt_id in history and history[prompt_id].get("outputs")`. -/
def histCompleted (pid : JVal) (h : JVal) : Except PyExc Bool := do
  let c ← pyContainsV h pid
  if c then do
    let e ← pyIndexV h pid
    let o ← pyGet e "outputs"
    .ok (truthy o)
  else .ok false

/-- Result of the polling loop: the final history record with the number
of `get_history` calls made, exhaustion of the retry budget (the loop's
`else` clause), or a propagated exception (caught at line 408). -/
inductive PollOutcome where
  | completed (h : JVal) (fetches : Nat) : PollOutcome
  | exhausted (fetches : Nat) : PollOutcome
  | errored (msg : PyExc) (fetches : Nat) : PollOutcome

/-- The polling loop of `handler` (lines 393-407), with the current
`retries` counter threaded through and the remaining iterations as fuel:
`while retries < COMFY_POLLING_MAX_RETRIES` fetches the history, breaks
on completion and otherwise sleeps and increments `retries`. -/
def pollLoopAux (fetch : Nat → Except PyExc JVal) (pid : JVal)
    (retries : Nat) : Nat → PollOutcome
  | 0 => .exhausted retries
  | rem + 1 =>
    match fetch retries with
    | .error m => .errored m (retries + 1)
    | .ok h =>
      match histCompleted pid h with
      | .error m => .errored m (retries + 1)
      | .ok true => .completed h (retries + 1)
      | .ok false => pollLoopAux fetch pid (retries + 1) rem

/-- The polling loop started with `retries = 0`. -/
def pollLoop (fetch : Nat → Except PyExc JVal) (pid : JVal)
    (maxRetries : Nat) : PollOutcome :=
  pollLoopAux fetch pid 0 maxRetries

/-- One image record of the structured-output walk (lines 276-280):
`os.path.join(COMFY_OUTPUT_PATH, image.get("subfolder", ""),
image["filename"])` followed by an `os.path.exists` check. -/
def structuredOne (env : Env) (img : JVal) :
    Except PyExc (List String × List Event) := do
  let sub ← pyGetD img "subfolder" (.str "")
  let subS ← pyStr? sub
  let fn ← pyIndexV img (.str "filename")
  let fnS ← pyStr? fn
  let p := pjoin3 env.outputPath subS fnS
  if env.pathExists p then .ok ([p], [.fsExists p])
  else .ok ([], [.fsExists p])

/-- Fold of `structuredOne` over the `images` list of one node output. -/
def structuredImgs (env : Env) : List JVal → Except PyExc (List String × List Event)
  | [] => .ok ([], [])
  | img :: rest => do
    let (ps, evs) ← structuredOne env img
    let (ps2, evs2) ← structuredImgs env rest
    .ok (ps ++ ps2, evs ++ evs2)

/-- One node output of the structured walk (lines 274-280): test
`"images" in node_output` and iterate over `node_output["images"]`. -/
def structuredNode (env : Env) (nout : JVal) :
    Except PyExc (List String × List Event) := do
  let c ← pyContainsV nout (.str "images")
  if c then do
    let imgsV ← pyIndexV nout (.str "images")
    let imgs ← pyIterate imgsV
    structuredImgs env imgs
  else .ok ([], [])

/-- Fold of `structuredNode` over the outputs mapping. -/
def structuredNodes (env : Env) : List (String × JVal) → Except PyExc (List String × List Event)
  | [] => .ok ([], [])
  | (_, nout) :: rest => do
    let (ps, evs) ← structuredNode env nout
    let (ps2, evs2) ← structuredNodes env rest
    .ok (ps ++ ps2, evs ++ evs2)

/-- Method 1 of `process_output_images` (lines 273-280): collect, from the
structured `outputs` mapping, the image paths that exist on disk.
`outputs.items()` raises on a non-dict. -/
def collectStructured (env : Env) (outputs : JVal) :
    Except PyExc (List String) × List Event :=
  match outputs with
  | .obj ns =>
    match structuredNodes env ns with
    | .ok (ps, evs) => (.ok ps, evs)
    | .error m => (.error m, [])
  | _ => (.error "AttributeError: no attribute items", [])

/-- The image-extension test of line 289:
`file.endswith(('.png', '.jpg', '.jpeg', '.webp'))`. -/
def hasImageExt (f : String) : Bool :=
  strEndsWith f ".png" || strEndsWith f ".jpg" ||
    strEndsWith f ".jpeg" || strEndsWith f ".webp"

/-- Method 2 of `process_output_images` (lines 283-295): walk the output
directory and collect image-extension files whose modification time is
within the last 30 seconds (`current_time - file_time < 30`). -/
def scanRecent (env : Env) : List String :=
  (env.walk.map (fun rd =>
    rd.2.filterMap (fun f =>
      if hasImageExt f then
        let p := pjoin rd.1 f
        if env.now - env.getmtime p < 30 then some p else none
      else none))).flatten

/-- The success dict of `process_output_images` (lines 312-317). -/
def outputSuccessObj (message path : String) (allImages : List String) : JVal :=
  .obj [("status", .str "success"), ("message", .str message),
        ("path", .str path), ("all_images", .arr (allImages.map JVal.str))]

/-- The error dict of `process_output_images` (lines 320-323). -/
def outputErrorObj : JVal :=
  .obj [("status", .str "error"),
        ("message", .str "No output images found in the output directory")]

/-- `process_output_images` (lines 265-323). -/
def process_output_images (env : Env) (outputs : JVal) (jobId : String) :
    Except PyExc JVal × List Event :=
  match collectStructured env outputs with
  | (.error m, evs) => (.error m, evs)
  | (.ok paths, evs) =>
    let (allPaths, evs) :=
      if paths.isEmpty then (scanRecent env, evs ++ [Event.fsWalk])
      else (paths, evs)
    match allPaths with
    | [] => (.ok outputErrorObj, evs)
    | p :: _ =>
      if env.bucket then
        (.ok (outputSuccessObj (env.s3Upload jobId p) p allPaths),
         evs ++ [Event.s3Upload jobId p])
      else
        (.ok (outputSuccessObj (env.fileB64 p) p allPaths),
         evs ++ [Event.fileRead p])

/-- A job as delivered by the queue host: `{"id": ..., "input": ...}`. -/
structure Job where
  id : String
  input : JVal

/-- `{"error": msg}`. -/
def errObj (msg : String) : JVal := .obj [("error", .str msg)]

/-- The submission step of `handler` (lines 381-387): `queue_workflow`
followed by `queued_workflow["prompt_id"]`, all inside one `try`. -/
def queueStage (env : Env) : Except PyExc JVal := do
  let qv ← env.queueResult
  pyIndexV qv (.str "prompt_id")

/-- Merging of line 416: `{**images_result, "refresh_worker": REFRESH_WORKER}`. -/
def mergeRefresh (res : JVal) (b : Bool) : JVal :=
  match res with
  | .obj fs => .obj (fs ++ [("refresh_worker", .bool b)])
  | v => v

/-- The part of `handler` (lines 349-418) that runs after validation and
the availability probe: image injection/upload, submission, polling and
output resolution.  Returns the job result together with the trace of its
own external calls (the probe's calls are prepended by `handler`). -/
def handlerAfterValidate (env : Env) (jobId : String) (vd : Validated) :
    Except PyExc JVal × List Event :=
  match imageStage env vd.workflow vd.images with
  | .error m => (.error m, [])
  | .ok (.abort res, evs) => (.ok res, evs)
  | .ok (.proceed wf, evs) =>
    let evs := evs ++ [Event.queuePost wf]
    match queueStage env with
    | .error m => (.ok (errObj ("Error queuing workflow: " ++ m)), evs)
    | .ok pid =>
      match pollLoop env.fetchHistory pid env.pollMax with
      | .errored m n =>
        (.ok (errObj ("Error waiting for image generation: " ++ m)),
         evs ++ (List.range n).map Event.historyGet)
      | .exhausted n =>
        (.ok (errObj "Max retries reached while waiting for image generation"),
         evs ++ (List.range n).map Event.historyGet)
      | .completed h n =>
        let evs := evs ++ (List.range n).map Event.historyGet
        match (pyIndexV h pid).bind (fun e => pyGet e "outputs") with
        | .error m => (.error m, evs)
        | .ok outs =>
          match process_output_images env outs jobId with
          | (.error m, oevs) => (.error m, evs ++ oevs)
          | (.ok res, oevs) =>
            (.ok (mergeRefresh res env.refreshWorker), evs ++ oevs)

/-- `handler` (lines 326-418), parameterized by the environment and by the
liveness probe of `check_server` (whose boolean result the code discards).
Returns the job result (`Except.error` models an exception escaping the
handler) together with the trace of external calls. -/
def handler (env : Env) (probe : Nat → Option Nat) (job : Job) :
    Except PyExc JVal × List Event :=
  match validate_input env job.input with
  | .error m => (.error m, [])
  | .ok (.err msg) => (.ok (errObj msg), [])
  | .ok (.ok vd) =>
    let probeEvs := (List.range
      (check_serverAux probe 0 COMFY_API_AVAILABLE_MAX_RETRIES).2).map Event.probeGet
    let r := handlerAfterValidate env job.id vd
    (r.1, probeEvs ++ r.2)

/-! ### Generic lemmas about the embedded primitives -/

theorem isPrefixOf_append_self (l r : List Char) : l.isPrefixOf (l ++ r) = true := by
  induction l with
  | nil => simp [List.isPrefixOf]
  | cons a t ih => simp [List.isPrefixOf, ih]

theorem findIdx_comma_append (pre post : List Char)
    (h : ∀ c ∈ pre, (c != ',') = true) :
    (pre ++ ',' :: post).findIdx? (fun c => c = ',') = some pre.length := by
  induction pre with
  | nil => simp
  | cons a t ih =>
    have ha : (a != ',') = true := h a (by simp)
    have ht : ∀ c ∈ t, (c != ',') = true := fun c hc => h c (by simp [hc])
    simp only [List.findIdx?_cons, List.cons_append]
    rw [if_neg (by simpa using ha)]
    simp [ih ht]

theorem drop_append_cons (pre : List Char) (x : Char) (post : List Char) :
    (pre ++ x :: post).drop (pre.length + 1) = post := by
  induction pre with
  | nil => simp
  | cons a t ih => simp [ih]

theorem pollLoopAux_exhaust (fetch : Nat → Except PyExc JVal) (pid : JVal)
    (rem start : Nat)
    (h : ∀ k, start ≤ k → k < start + rem →
      ∃ g, fetch k = .ok g ∧ histCompleted pid g = .ok false) :
    pollLoopAux fetch pid start rem = .exhausted (start + rem) := by
  induction rem generalizing start with
  | zero => simp [pollLoopAux]
  | succ n ih =>
    obtain ⟨g, hf, hc⟩ := h start (Nat.le_refl _) (by omega)
    have hrest := ih (start + 1) (fun k hk1 hk2 => h k (by omega) (by omega))
    simp only [pollLoopAux, hf, hc, hrest]
    congr 1
    omega

theorem pollLoopAux_complete (fetch : Nat → Except PyExc JVal) (pid : JVal)
    (j : Nat) (hh : JVal) :
    ∀ (rem start : Nat), j < rem →
    (∀ k, start ≤ k → k < start + j →
      ∃ g, fetch k = .ok g ∧ histCompleted pid g = .ok false) →
    fetch (start + j) = .ok hh → histCompleted pid hh = .ok true →
    pollLoopAux fetch pid start rem = .completed hh (start + j + 1) := by
  induction j with
  | zero =>
    intro rem start hj _ hat hc
    cases rem with
    | zero => omega
    | succ n =>
      simp only [Nat.add_zero] at hat
      simp [pollLoopAux, hat, hc]
  | succ m ih =>
    intro rem start hj hbefore hat hc
    cases rem with
    | zero => omega
    | succ n =>
      obtain ⟨g, hf, hcf⟩ := hbefore start (Nat.le_refl _) (by omega)
      have hrest := ih n (start + 1) (by omega)
        (fun k hk1 hk2 => hbefore k (by omega) (by omega))
        (by rw [show start + 1 + m = start + (m + 1) by omega]; exact hat) hc
      simp only [pollLoopAux, hf, hcf, hrest]
      congr 1
      omega

/-! ### Concrete values for witnesses and counterexamples -/

/-- A baseline environment for concrete evaluations: a reachable backend,
successful uploads, one queued prompt, empty histories, one recent image
file in the output directory. -/
def witEnv : Env where
  jsonParse := fun _ => none
  wfExists := fun _ => true
  wfLoad := fun _ => some (.obj [("3", .obj [("class_type", .str "KSampler"),
    ("inputs", .obj [])])])
  uploadStatus := fun _ => (200, "ok")
  queueResult := .ok (.obj [("prompt_id", .str "p1")])
  fetchHistory := fun _ => .ok (.obj [])
  pollMax := 3
  outputPath := "/comfyui/output"
  pathExists := fun _ => true
  walk := [("/comfyui/output", ["a.png", "b.txt"])]
  now := 100
  getmtime := fun _ => 90
  bucket := false
  s3Upload := fun j p => "s3://" ++ j ++ "/" ++ p
  fileB64 := fun p => "b64:" ++ p
  refreshWorker := false

/-- A well-formed single-node workflow with no inline-base64 node. -/
def witWorkflow : JVal :=
  .obj [("1", .obj [("class_type", .str "KSampler"), ("inputs", .obj [])])]

/-! ### Claim C1 -/

/-- Claim C1: for every history-fetch sequence whose entry for the prompt
id has empty or missing outputs on the first N-1 fetches and truthy
outputs on fetch N (N within the configured budget), the polling loop of
`handler` returns that populated record after exactly N fetches; and for
every sequence whose outputs never become truthy, the loop performs
exactly `maxRetries` fetches and exits into the retry-budget-exceeded
branch (`PollOutcome.exhausted`, which `handler` maps to the
`{"error": "Max retries reached while waiting for image generation"}`
result). -/
theorem claim_C1_completion_polling (fetch fetch2 : Nat → Except PyExc JVal)
    (pid : JVal) (N maxR : Nat) (hN : JVal)
    (h1 : 1 ≤ N) (h2 : N ≤ maxR)
    (hbefore : ∀ k, k < N - 1 →
      ∃ g, fetch k = .ok g ∧ histCompleted pid g = .ok false)
    (hat : fetch (N - 1) = .ok hN) (hc : histCompleted pid hN = .ok true)
    (hnever : ∀ k, ∃ g, fetch2 k = .ok g ∧ histCompleted pid g = .ok false) :
    pollLoop fetch pid maxR = .completed hN N ∧
      pollLoop fetch2 pid maxR = .exhausted maxR := by
  constructor
  · have := pollLoopAux_complete fetch pid (N - 1) hN maxR 0 (by omega)
      (fun k _ hk2 => hbefore k (by omega))
      (by simpa using hat) hc
    rw [pollLoop, this]
    congr 1
    omega
  · have := pollLoopAux_exhaust fetch2 pid maxR 0
      (fun k _ _ => hnever k)
    rw [pollLoop, this]
    congr 1
    omega

/-- A populated history record for the C1 witness. -/
def witHistDone : JVal :=
  .obj [("p1", .obj [("outputs", .obj [("9", .obj [])])])]

/-- A fetch sequence that populates outputs on the second call. -/
def witFetch (k : Nat) : Except PyExc JVal :=
  if k < 1 then .ok (.obj []) else .ok witHistDone

theorem claim_C1_completion_polling_witness :
    pollLoop witFetch (.str "p1") 3 = .completed witHistDone 2 ∧
      pollLoop (fun _ => .ok (.obj [])) (.str "p1") 3 = .exhausted 3 :=
  claim_C1_completion_polling witFetch (fun _ => .ok (.obj [])) (.str "p1") 2 3
    witHistDone (by omega) (by omega)
    (fun k hk => ⟨.obj [], by simp [witFetch]; omega, rfl⟩)
    (by simp [witFetch]) rfl
    (fun k => ⟨.obj [], rfl, rfl⟩)

/-! ### Claim C5 -/

/-- A node definition (with `class_type` and `inputs`) used below. -/
def nodeDefC5 : JVal :=
  .obj [("class_type", .str "LoadImage"), ("inputs", .obj [])]

/-- A canonical-form workflow mapping whose single node id is the string
`"prompt"`. -/
def wfC5 : JVal := .obj [("prompt", nodeDefC5)]

/-- Claim C5 counterexample: `wfC5` is a mapping from node id to node
definition and is itself an output of the resolver's canonicalization
step (it is produced by resolving `{"prompt": wfC5}`), yet canonicalizing
it again unwraps its `"prompt"` entry instead of returning it unchanged —
canonicalization is not idempotent on all canonical-form mappings. -/
theorem claim_C5_counterexample :
    canonWorkflow (.obj [("prompt", wfC5)]) = .ok wfC5 ∧
      canonWorkflow wfC5 = .ok nodeDefC5 ∧ nodeDefC5 ≠ wfC5 := by
  refine ⟨rfl, rfl, ?_⟩
  simp [nodeDefC5, wfC5]

/-- Claim C5 (amended): canonicalization is idempotent on every mapping
that has no top-level `"prompt"` key — re-canonicalizing such a workflow
returns it unchanged; a canonical mapping that does use `"prompt"` as a
node id is unwrapped again. -/
theorem claim_C5_amended (fs : List (String × JVal))
    (h : lookupF fs "prompt" = none) :
    canonWorkflow (.obj fs) = .ok (.obj fs) := by
  simp [canonWorkflow, h]

theorem claim_C5_amended_witness :
    canonWorkflow (.obj [("3", nodeDefC5)]) = .ok (.obj [("3", nodeDefC5)]) :=
  claim_C5_amended [("3", nodeDefC5)] rfl

/-! ### Claim C6 -/

/-- Claim C6: for every image string of data-URL shape
`"data:<mime>;base64,<payload>"` (first comma the one ending the header),
the value passed onward to injection or upload is exactly the substring
after the first comma, i.e. the payload; and every string that does not
start with the `"data:"` head is passed through unchanged.
`stripDataUrl` is the stripping step shared by `upload_images`
(lines 176-181) and the handler's injection block (lines 357-362). -/
theorem claim_C6_data_url_stripping (mime payload s : String)
    (hm : ∀ c ∈ mime.toList, (c != ',') = true)
    (hs : ("data:".toList).isPrefixOf s.toList = false) :
    stripDataUrl ("data:" ++ mime ++ ";base64," ++ payload) = payload ∧
      stripDataUrl s = s := by
  constructor
  · have hdata : ("data:" ++ mime ++ ";base64," ++ payload).toList
        = ("data:".toList ++ (mime.toList ++ ";base64".toList))
            ++ ',' :: payload.toList := by
      show ("data:" ++ mime ++ ";base64," ++ payload).data = _
      simp [String.data_append]
    have hd5 : ∀ c ∈ "data:".toList, (c != ',') = true := by decide
    have hb64 : ∀ c ∈ ";base64".toList, (c != ',') = true := by decide
    have hpre : ∀ c ∈ "data:".toList ++ (mime.toList ++ ";base64".toList),
        (c != ',') = true := by
      intro c hc
      rcases List.mem_append.1 hc with h1 | h2
      · exact hd5 c h1
      · rcases List.mem_append.1 h2 with h3 | h4
        · exact hm c h3
        · exact hb64 c h4
    have hpref : ("data:".toList).isPrefixOf
        (("data:".toList ++ (mime.toList ++ ";base64".toList))
          ++ ',' :: payload.toList) = true := by
      rw [List.append_assoc]
      exact isPrefixOf_append_self _ _
    unfold stripDataUrl stripDataUrlL
    rw [hdata, if_pos hpref, findIdx_comma_append _ _ hpre]
    show String.mk
      (List.drop (("data:".toList ++ (mime.toList ++ ";base64".toList)).length + 1)
        (("data:".toList ++ (mime.toList ++ ";base64".toList))
          ++ ',' :: payload.toList)) = payload
    rw [drop_append_cons]
    rfl
  · unfold stripDataUrl stripDataUrlL
    rw [if_neg (by rw [hs]; simp)]
    rfl

theorem claim_C6_data_url_stripping_witness :
    stripDataUrl ("data:" ++ "image/png" ++ ";base64," ++ "AAAA") = "AAAA" ∧
      stripDataUrl "AAAA" = "AAAA" :=
  claim_C6_data_url_stripping "image/png" "AAAA" "AAAA" (by decide) (by decide)

/-! ### Claim C9 -/

/-- Claim C9: when a raw input carries both a truthy inline `workflow`
and a truthy `workflow_name`, validation discards the inline workflow:
on successful (truthy) catalog resolution the validated workflow is the
loaded one, and when resolution fails (returns nothing, or a falsy
value) the whole validation fails with the workflow-loading error even
though a well-formed inline workflow was supplied. -/
theorem claim_C9_workflow_name_priority (env : Env)
    (fs : List (String × JVal)) (w : JVal) (wn : String)
    (hw : lookupF fs "workflow" = some w) (hwf : truthy w = true)
    (hwn : lookupF fs "workflow_name" = some (.str wn)) (hwne : wn ≠ "")
    (hni : lookupF fs "images" = none) :
    (∀ w2, load_workflow_by_name env wn = some w2 → truthy w2 = true →
      validate_input env (.obj fs)
        = .ok (.ok { workflow := w2, images := .null })) ∧
    (load_workflow_by_name env wn = none →
      validate_input env (.obj fs)
        = .ok (.err ("Could not load workflow: " ++ wn))) ∧
    (∀ w2, load_workflow_by_name env wn = some w2 → truthy w2 = false →
      validate_input env (.obj fs)
        = .ok (.err ("Could not load workflow: " ++ wn))) := by
  have hwt : truthy (.str wn) = true := by simp [truthy, hwne]
  refine ⟨?_, ?_, ?_⟩
  · intro w2 hl ht
    simp [validate_input, validateImages, pyGet, hw, hwf, hwn, hwt, hni, hl, ht,
      JVal.isNull, Bind.bind, Except.bind, Pure.pure, Except.pure, pyStr?]
  · intro hl
    simp [validate_input, validateImages, pyGet, hw, hwf, hwn, hwt, hni, hl,
      JVal.isNull, Bind.bind, Except.bind, Pure.pure, Except.pure, pyStr?]
  · intro w2 hl ht
    simp [validate_input, validateImages, pyGet, hw, hwf, hwn, hwt, hni, hl, ht,
      JVal.isNull, Bind.bind, Except.bind, Pure.pure, Except.pure, pyStr?]

theorem claim_C9_workflow_name_priority_witness :
    validate_input witEnv
      (.obj [("workflow", witWorkflow), ("workflow_name", .str "basic")])
      = .ok (.ok { workflow := .obj [("3", .obj [("class_type", .str "KSampler"),
          ("inputs", .obj [])])], images := .null }) :=
  (claim_C9_workflow_name_priority witEnv
      [("workflow", witWorkflow), ("workflow_name", .str "basic")]
      witWorkflow "basic" rfl (by simp [witWorkflow, truthy]) rfl
      (by decide) rfl).1
    (.obj [("3", .obj [("class_type", .str "KSampler"), ("inputs", .obj [])])])
    rfl (by simp [truthy])

/-! ### Claim C10 -/

/-- Claim C10: the presence of `workflow` is tested by truthiness, not key
membership — an input whose `workflow` field is present but falsy (empty
mapping, empty string, ...) with `workflow_name` absent or falsy is
rejected with the missing-workflow error rather than accepted. -/
theorem claim_C10_truthiness_check (env : Env)
    (fs : List (String × JVal)) (w : JVal)
    (hw : lookupF fs "workflow" = some w) (hwf : truthy w = false)
    (hwn : truthy ((lookupF fs "workflow_name").getD .null) = false) :
    validate_input env (.obj fs)
      = .ok (.err "Missing \x27workflow\x27 or \x27workflow_name\x27 parameter") := by
  simp [validate_input, validateImages, pyGet, hw, hwf, hwn, JVal.isNull,
    Bind.bind, Except.bind, Pure.pure, Except.pure]

theorem claim_C10_truthiness_check_witness :
    validate_input witEnv (.obj [("workflow", .obj [])])
      = .ok (.err "Missing \x27workflow\x27 or \x27workflow_name\x27 parameter") :=
  claim_C10_truthiness_check witEnv [("workflow", .obj [])] (.obj [])
    rfl rfl rfl

/-! ### Claim C7 -/

/-- What the source's images check actually verifies of one element:
membership of both the `"name"` and `"image"` keys (not the types of the
values). -/
def hasNameImage (x : JVal) : Bool :=
  (x.get? "name").isSome && (x.get? "image").isSome

theorem checkImages_objs (xs : List JVal)
    (h : ∀ x ∈ xs, ∃ g, x = JVal.obj g) :
    checkImages xs = .ok (xs.all hasNameImage) := by
  induction xs with
  | nil => rfl
  | cons x t ih =>
    obtain ⟨g, rfl⟩ := h x (by simp)
    have ht := ih (fun y hy => h y (by simp [hy]))
    by_cases h1 : (lookupF g "name").isSome
    · by_cases h2 : (lookupF g "image").isSome
      · simp [checkImages, pyContainsV, h1, h2, ht, hasNameImage, JVal.get?,
          Bind.bind, Except.bind]
      · simp [checkImages, pyContainsV, h1, h2, hasNameImage, JVal.get?,
          Bind.bind, Except.bind]
    · simp [checkImages, pyContainsV, h1, hasNameImage, JVal.get?,
        Bind.bind, Except.bind]

/-- Claim C7 counterexample: an input whose single image element carries
non-string `name` and `image` values passes validation — the code checks
only key membership (`"name" in image and "image" in image`), not that
the values are strings, so the claimed rejection of non-string values
does not happen. -/
theorem claim_C7_counterexample :
    validate_input witEnv
      (.obj [("workflow", witWorkflow),
             ("images", .arr [.obj [("name", .num 1), ("image", .num 2)]])])
      = .ok (.ok { workflow := witWorkflow,
                   images := .arr [.obj [("name", .num 1), ("image", .num 2)]] }) :=
  rfl

/-- Claim C7 (amended): when `images` is present as a list of mapping
elements, validation succeeds iff every element has both a `name` key and
an `image` key — key membership only, the values need not be strings —
and otherwise fails with the shape error naming the required keys. -/
theorem claim_C7_amended (env : Env) (fs : List (String × JVal))
    (w : JVal) (xs : List JVal)
    (hw : lookupF fs "workflow" = some w) (hwf : truthy w = true)
    (hwn : truthy ((lookupF fs "workflow_name").getD .null) = false)
    (hi : lookupF fs "images" = some (.arr xs))
    (hobj : ∀ x ∈ xs, ∃ g, x = JVal.obj g) :
    validate_input env (.obj fs)
      = .ok (if xs.all hasNameImage
          then .ok { workflow := w, images := .arr xs }
          else .err "\x27images\x27 must be a list of objects with \x27name\x27 and \x27image\x27 keys") := by
  have hc := checkImages_objs xs hobj
  by_cases hall : xs.all hasNameImage
  · simp [validate_input, validateImages, pyGet, hw, hwf, hwn, hi, hc, hall,
      JVal.isNull, Bind.bind, Except.bind, Pure.pure, Except.pure]
  · simp [validate_input, validateImages, pyGet, hw, hwf, hwn, hi, hc, hall,
      JVal.isNull, Bind.bind, Except.bind, Pure.pure, Except.pure]

theorem claim_C7_amended_witness :
    validate_input witEnv
      (.obj [("workflow", witWorkflow), ("images", .arr [.obj [("name", .num 1)]])])
      = .ok (if ([JVal.obj [("name", .num 1)]].all hasNameImage)
          then .ok { workflow := witWorkflow, images := .arr [.obj [("name", .num 1)]] }
          else .err "\x27images\x27 must be a list of objects with \x27name\x27 and \x27image\x27 keys") :=
  claim_C7_amended witEnv
    [("workflow", witWorkflow), ("images", .arr [.obj [("name", .num 1)]])]
    witWorkflow [.obj [("name", .num 1)]] rfl (by decide) rfl rfl
    (fun x hx => ⟨[("name", .num 1)], by simpa using hx⟩)

/-! ### Claim C8 -/

/-- Events other than the availability probe's GETs. -/
def isNotProbe : Event → Bool
  | .probeGet _ => false
  | _ => true

theorem probeEvs_filter (n : Nat) :
    ((List.range n).map Event.probeGet).filter isNotProbe = [] := by
  rw [List.filter_eq_nil_iff]
  intro a ha
  obtain ⟨k, _, rfl⟩ := List.mem_map.1 ha
  simp [isNotProbe]

/-- Claim C8: the availability probe never fails the job.  `check_server`
is a total boolean function (transport errors are `none` probe outcomes
and are swallowed), its result is discarded, and the handler's result and
its entire non-probe behaviour are identical for any two probe outcome
sequences — the job's result is independent of the probe. -/
theorem claim_C8_probe_independence (env : Env)
    (p1 p2 : Nat → Option Nat) (job : Job) :
    (handler env p1 job).1 = (handler env p2 job).1 ∧
      (handler env p1 job).2.filter isNotProbe
        = (handler env p2 job).2.filter isNotProbe := by
  cases hv : validate_input env job.input with
  | error m => simp [handler, hv]
  | ok r =>
    cases r with
    | err msg => simp [handler, hv]
    | ok vd => simp [handler, hv, List.filter_append, probeEvs_filter]

/-! ### Claim C4 -/

theorem structuredOne_no_walk (env : Env) (img : JVal) (ps : List String)
    (evs : List Event) (h : structuredOne env img = .ok (ps, evs)) :
    Event.fsWalk ∉ evs := by
  simp only [structuredOne, Bind.bind, Except.bind] at h
  cases hsub : pyGetD img "subfolder" (.str "") with
  | error m => rw [hsub] at h; exact absurd h (by simp)
  | ok sub =>
    simp only [hsub] at h
    cases hss : pyStr? sub with
    | error m => simp only [hss] at h; exact absurd h (by simp)
    | ok subS =>
      simp only [hss] at h
      cases hfn : pyIndexV img (.str "filename") with
      | error m => simp only [hfn] at h; exact absurd h (by simp)
      | ok fn =>
        simp only [hfn] at h
        cases hfs : pyStr? fn with
        | error m => simp only [hfs] at h; exact absurd h (by simp)
        | ok fnS =>
          simp only [hfs] at h
          by_cases hp : env.pathExists (pjoin3 env.outputPath subS fnS)
          · rw [if_pos hp] at h
            cases h
            simp
          · rw [if_neg hp] at h
            cases h
            simp

theorem structuredImgs_no_walk (env : Env) : ∀ (imgs : List JVal)
    (ps : List String) (evs : List Event),
    structuredImgs env imgs = .ok (ps, evs) → Event.fsWalk ∉ evs
  | [], ps, evs, h => by
    simp only [structuredImgs] at h
    cases h
    simp
  | img :: rest, ps, evs, h => by
    simp only [structuredImgs, Bind.bind, Except.bind] at h
    cases h1 : structuredOne env img with
    | error m => simp only [h1] at h; exact absurd h (by simp)
    | ok pe1 =>
      simp only [h1] at h
      cases h2 : structuredImgs env rest with
      | error m => simp only [h2] at h; exact absurd h (by simp)
      | ok pe2 =>
        simp only [h2] at h
        cases h
        intro hmem
        rcases List.mem_append.1 hmem with hm | hm
        · exact structuredOne_no_walk env img pe1.1 pe1.2 (by rw [h1]) hm
        · exact structuredImgs_no_walk env rest pe2.1 pe2.2 (by rw [h2]) hm

theorem structuredNode_no_walk (env : Env) (nout : JVal) (ps : List String)
    (evs : List Event) (h : structuredNode env nout = .ok (ps, evs)) :
    Event.fsWalk ∉ evs := by
  simp only [structuredNode, Bind.bind, Except.bind] at h
  cases hc : pyContainsV nout (.str "images") with
  | error m => rw [hc] at h; exact absurd h (by simp)
  | ok c =>
    simp only [hc] at h
    by_cases hcv : c
    · rw [if_pos hcv] at h
      cases hv : pyIndexV nout (.str "images") with
      | error m => simp only [hv] at h; exact absurd h (by simp)
      | ok iv =>
        simp only [hv] at h
        cases hit : pyIterate iv with
        | error m => simp only [hit] at h; exact absurd h (by simp)
        | ok imgs =>
          simp only [hit] at h
          exact structuredImgs_no_walk env imgs ps evs h
    · rw [if_neg hcv] at h
      cases h
      simp

theorem structuredNodes_no_walk (env : Env) : ∀ (ns : List (String × JVal))
    (ps : List String) (evs : List Event),
    structuredNodes env ns = .ok (ps, evs) → Event.fsWalk ∉ evs
  | [], ps, evs, h => by
    simp only [structuredNodes] at h
    cases h
    simp
  | (nid, nout) :: rest, ps, evs, h => by
    simp only [structuredNodes, Bind.bind, Except.bind] at h
    cases h1 : structuredNode env nout with
    | error m => simp only [h1] at h; exact absurd h (by simp)
    | ok pe1 =>
      simp only [h1] at h
      cases h2 : structuredNodes env rest with
      | error m => simp only [h2] at h; exact absurd h (by simp)
      | ok pe2 =>
        simp only [h2] at h
        cases h
        intro hmem
        rcases List.mem_append.1 hmem with hm | hm
        · exact structuredNode_no_walk env nout pe1.1 pe1.2 (by rw [h1]) hm
        · exact structuredNodes_no_walk env rest pe2.1 pe2.2 (by rw [h2]) hm

theorem collectStructured_no_walk (env : Env) (outputs : JVal) :
    Event.fsWalk ∉ (collectStructured env outputs).2 := by
  cases outputs with
  | obj ns =>
    simp only [collectStructured]
    cases h : structuredNodes env ns with
    | error m => simp
    | ok pe => exact structuredNodes_no_walk env ns pe.1 pe.2 (by rw [h])
  | null => simp [collectStructured]
  | bool b => simp [collectStructured]
  | num n => simp [collectStructured]
  | str s => simp [collectStructured]
  | arr xs => simp [collectStructured]

/-- Claim C4: the output resolver takes the directory-scan fallback (the
`os.walk` of lines 287-295, event `fsWalk`) if and only if the structured
outputs mapping yielded zero on-disk image paths; and the fallback
collects a file only when its name carries one of the image extensions
and its modification time is strictly newer than thirty seconds before
the current time (`current_time - file_time < 30`). -/
theorem claim_C4_output_fallback (env : Env) (outputs : JVal) (jid : String) :
    (Event.fsWalk ∈ (process_output_images env outputs jid).2 ↔
      (collectStructured env outputs).1 = .ok []) ∧
    (∀ p ∈ scanRecent env, ∃ rd ∈ env.walk, ∃ f ∈ rd.2,
      p = pjoin rd.1 f ∧ hasImageExt f = true ∧
        env.now - env.getmtime p < 30) := by
  constructor
  · have hnw := collectStructured_no_walk env outputs
    cases hcs : collectStructured env outputs with
    | mk r evs =>
      rw [hcs] at hnw
      cases r with
      | error m =>
        simp only [process_output_images, hcs]
        simp [hnw]
      | ok paths =>
        cases paths with
        | nil =>
          simp only [process_output_images, hcs, List.isEmpty_nil]
          cases hsr : scanRecent env with
          | nil => simp [hsr]
          | cons p t =>
            by_cases hb : env.bucket
            · simp [hsr, hb]
            · simp [hsr, hb]
        | cons p rest =>
          simp only [process_output_images, hcs, List.isEmpty_cons]
          by_cases hb : env.bucket
          · simp [hb, hnw]
          · simp [hb, hnw]
  · intro p hp
    simp only [scanRecent, List.mem_flatten] at hp
    obtain ⟨l, hl, hpl⟩ := hp
    obtain ⟨rd, hrd, rfl⟩ := List.mem_map.1 hl
    obtain ⟨f, hf, hg⟩ := List.mem_filterMap.1 hpl
    refine ⟨rd, hrd, f, hf, ?_⟩
    by_cases hext : hasImageExt f
    · rw [if_pos hext] at hg
      by_cases hrec : env.now - env.getmtime (pjoin rd.1 f) < 30
      · rw [if_pos hrec] at hg
        cases hg
        exact ⟨rfl, hext, hrec⟩
      · rw [if_neg hrec] at hg
        cases hg
    · rw [if_neg hext] at hg
      cases hg

theorem claim_C4_output_fallback_witness :
    (Event.fsWalk ∈ (process_output_images witEnv (.obj []) "j1").2 ↔
      (collectStructured witEnv (.obj [])).1 = .ok []) ∧
    (∃ rd ∈ witEnv.walk, ∃ f ∈ rd.2,
      "/comfyui/output/a.png" = pjoin rd.1 f ∧ hasImageExt f = true ∧
        witEnv.now - witEnv.getmtime "/comfyui/output/a.png" < 30) :=
  ⟨(claim_C4_output_fallback witEnv (.obj []) "j1").1,
   (claim_C4_output_fallback witEnv (.obj []) "j1").2
     "/comfyui/output/a.png"
     (by decide)⟩

/-! ### Claim C2 -/

/-- Well-formedness of one image input per the data model (§3 RawInput):
a mapping with a `name` key and a string-valued `image` key. -/
def WFImageB (x : JVal) : Bool :=
  match x with
  | .obj g => (lookupF g "name").isSome &&
      (match lookupF g "image" with | some (.str _) => true | _ => false)
  | _ => false

/-- Well-formedness of one workflow node per the data model (§3 Workflow):
a mapping whose `inputs` value is a mapping. -/
def WFNodeB (nd : JVal) : Bool :=
  match nd with
  | .obj nfs =>
    (match lookupF nfs "inputs" with | some (.obj _) => true | _ => false)
  | _ => false

/-- Whether a node's `class_type` is in the inline-base64 set (line 353). -/
def nodeMatches (nd : JVal) : Bool :=
  match nd with
  | .obj nfs => isBase64NodeType ((lookupF nfs "class_type").getD .null)
  | _ => false

/-- The string payload of an image input (its `image` field). -/
def imageStrOf (x : JVal) : String :=
  match x.get? "image" with
  | some (.str s) => s
  | _ => ""

/-- The `name` field of an image input. -/
def nameOf (x : JVal) : JVal := (x.get? "name").getD .null

/-- The node update performed by line 365:
`workflow[node_id]["inputs"]["data"] = image_data`. -/
def injectData (nd : JVal) (data : String) : JVal :=
  match nd with
  | .obj nfs =>
    match lookupF nfs "inputs" with
    | some (.obj ifs) =>
      .obj (setF nfs "inputs" (.obj (setF ifs "data" (.str data))))
    | _ => nd
  | _ => nd

theorem lookupF_setF_self (fs : List (String × JVal)) (k : String) (v : JVal) :
    lookupF (setF fs k v) k = some v := by
  induction fs with
  | nil => simp [setF, lookupF]
  | cons q rest ih =>
    by_cases h : q.1 = k
    · simp [setF, h, lookupF]
    · simp [setF, h, lookupF, ih]

theorem lookupF_setF_ne (fs : List (String × JVal)) (k k2 : String) (v : JVal)
    (h : k2 ≠ k) : lookupF (setF fs k v) k2 = lookupF fs k2 := by
  have h2 : ¬(k = k2) := fun hh => h hh.symm
  induction fs with
  | nil => simp [setF, lookupF, h2]
  | cons q rest ih =>
    obtain ⟨a, b⟩ := q
    by_cases hq : a = k
    · have hq2 : ¬(a = k2) := by rw [hq]; exact h2
      simp [setF, hq, lookupF, h2, hq2]
    · by_cases hq2 : a = k2
      · simp [setF, hq, lookupF, hq2, h]
      · simp [setF, hq, lookupF, hq2, h, ih]

theorem scanNodes_skip (images : JVal) (pre rest2 : List (String × JVal))
    (hpre : ∀ q ∈ pre, WFNodeB q.2 = true ∧ nodeMatches q.2 = false) :
    scanNodes images (pre ++ rest2) = scanNodes images rest2 := by
  induction pre with
  | nil => rfl
  | cons q pre2 ih =>
    obtain ⟨hwf, hnm⟩ := hpre q (by simp)
    obtain ⟨k, nd⟩ := q
    cases nd with
    | obj nfs =>
      simp only [nodeMatches] at hnm
      simp only [List.cons_append, scanNodes, hnm, if_false]
      exact ih (fun q hq => hpre q (by simp [hq]))
    | null => simp [WFNodeB] at hwf
    | bool b => simp [WFNodeB] at hwf
    | num n => simp [WFNodeB] at hwf
    | str s => simp [WFNodeB] at hwf
    | arr xs => simp [WFNodeB] at hwf

theorem scanNodes_found (g : List (String × JVal)) (s : String)
    (rest : List JVal) (nid : String) (nfs ifs : List (String × JVal))
    (suf : List (String × JVal))
    (hm : nodeMatches (.obj nfs) = true)
    (hinp : lookupF nfs "inputs" = some (.obj ifs))
    (hgs : lookupF g "image" = some (.str s)) :
    scanNodes (.arr (.obj g :: rest)) ((nid, .obj nfs) :: suf)
      = .ok (some (nid, injectData (.obj nfs) (stripDataUrl s))) := by
  simp only [nodeMatches] at hm
  simp [scanNodes, hm, pyIterate, pyIndexV, hgs, pyStr?, hinp, injectData,
    Bind.bind, Except.bind]

theorem uploadLoop_all (env : Env) : ∀ (xs : List JVal) (idx : Nat),
    (∀ x ∈ xs, WFImageB x = true) →
    (∀ x ∈ xs, b64decodeOk (stripDataUrl (imageStrOf x)) = true) →
    ∃ rs es, uploadLoop env idx xs
      = .ok (rs, es,
          xs.map (fun x => Event.uploadPost (nameOf x) (stripDataUrl (imageStrOf x))))
  | [], idx, _, _ => ⟨[], [], rfl⟩
  | x :: rest, idx, hwf, hdec => by
    have hx := hwf x (by simp)
    cases x with
    | obj g =>
      simp only [WFImageB, Bool.and_eq_true] at hx
      obtain ⟨hname, himg⟩ := hx
      obtain ⟨nv, hnv⟩ := Option.isSome_iff_exists.1 hname
      cases hgi : lookupF g "image" with
      | none => rw [hgi] at himg; simp at himg
      | some iv =>
        cases iv with
        | str s =>
          have hdx := hdec (.obj g) (by simp)
          have hstr : imageStrOf (.obj g) = s := by
            simp [imageStrOf, JVal.get?, hgi]
          rw [hstr] at hdx
          obtain ⟨rs, es, hrest⟩ := uploadLoop_all env rest (idx + 1)
            (fun y hy => hwf y (by simp [hy]))
            (fun y hy => hdec y (by simp [hy]))
          have hname2 : nameOf (.obj g) = nv := by
            simp [nameOf, JVal.get?, hnv]
          cases hus : env.uploadStatus idx with
          | mk code text =>
            by_cases hcode : code = 200
            · refine ⟨("Successfully uploaded " ++ pyShow nv) :: rs, es, ?_⟩
              simp [uploadLoop, uploadOne, pyIndexV, hnv, hgi, pyStr?, hdx,
                hus, hcode, hrest, hstr, hname2, Bind.bind, Except.bind]
            · refine ⟨rs, ("Error uploading " ++ pyShow nv ++ ": " ++ text) :: es, ?_⟩
              simp [uploadLoop, uploadOne, pyIndexV, hnv, hgi, pyStr?, hdx,
                hus, hcode, hrest, hstr, hname2, Bind.bind, Except.bind]
        | null => rw [hgi] at himg; simp at himg
        | bool b => rw [hgi] at himg; simp at himg
        | num n => rw [hgi] at himg; simp at himg
        | arr a => rw [hgi] at himg; simp at himg
        | obj o => rw [hgi] at himg; simp at himg
    | null => simp [WFImageB] at hx
    | bool b => simp [WFImageB] at hx
    | num n => simp [WFImageB] at hx
    | str sx => simp [WFImageB] at hx
    | arr a => simp [WFImageB] at hx

/-- Claim C2: for every well-formed workflow (per the data model) and
non-empty well-formed image list with decodable base64 payloads —
(a) when some node's `class_type` is in the inline-base64 set, the image
stage updates exactly the first matching node, writing the stripped
payload of the first image into that node's `inputs.data` field, leaves
every other node untouched, and performs no upload POST at all; and
(b) when no node matches, the stage performs exactly one upload POST per
image, in list order, each carrying that image's name and stripped
payload. -/
theorem claim_C2_injection_or_upload (env : Env) (ws : List (String × JVal))
    (img : JVal) (rest : List JVal)
    (hnodes : ∀ q ∈ ws, WFNodeB q.2 = true)
    (himgs : ∀ x ∈ img :: rest, WFImageB x = true)
    (hdec : ∀ x ∈ img :: rest, b64decodeOk (stripDataUrl (imageStrOf x)) = true) :
    (∀ nid nd pre suf, ws = pre ++ (nid, nd) :: suf →
      (∀ q ∈ pre, nodeMatches q.2 = false) →
      (∀ q ∈ pre, q.1 ≠ nid) →
      nodeMatches nd = true →
      imageStage env (.obj ws) (.arr (img :: rest))
        = .ok (.proceed (.obj (setF ws nid
            (injectData nd (stripDataUrl (imageStrOf img))))), []) ∧
      lookupF (setF ws nid (injectData nd (stripDataUrl (imageStrOf img)))) nid
        = some (injectData nd (stripDataUrl (imageStrOf img))) ∧
      (∀ k, k ≠ nid →
        lookupF (setF ws nid (injectData nd (stripDataUrl (imageStrOf img)))) k
          = lookupF ws k)) ∧
    ((∀ q ∈ ws, nodeMatches q.2 = false) →
      ∃ out, imageStage env (.obj ws) (.arr (img :: rest))
        = .ok (out, (img :: rest).map
            (fun x => Event.uploadPost (nameOf x) (stripDataUrl (imageStrOf x))))) := by
  have htru : truthy (.arr (img :: rest)) = true := by simp [truthy]
  constructor
  · intro nid nd pre suf hws hpreM hpreK hm
    subst hws
    have hscan : scanNodes (.arr (img :: rest)) (pre ++ (nid, nd) :: suf)
        = scanNodes (.arr (img :: rest)) ((nid, nd) :: suf) :=
      scanNodes_skip _ pre _ (fun q hq =>
        ⟨hnodes q (by simp [hq]), hpreM q hq⟩)
    cases nd with
    | obj nfs =>
      have hwfn := hnodes (nid, .obj nfs) (by simp)
      simp only [WFNodeB] at hwfn
      cases hinp : lookupF nfs "inputs" with
      | none => rw [hinp] at hwfn; simp at hwfn
      | some iv =>
        cases iv with
        | obj ifs =>
          have himg := himgs img (by simp)
          cases img with
          | obj g =>
            simp only [WFImageB, Bool.and_eq_true] at himg
            obtain ⟨hname, himgf⟩ := himg
            cases hgi : lookupF g "image" with
            | none => rw [hgi] at himgf; simp at himgf
            | some giv =>
              cases giv with
              | str s =>
                have hstr : imageStrOf (.obj g) = s := by
                  simp [imageStrOf, JVal.get?, hgi]
                have hfound := scanNodes_found g s rest nid nfs ifs suf hm hinp hgi
                rw [hfound] at hscan
                refine ⟨?_, ?_, ?_⟩
                · simp only [imageStage, htru, Bool.not_true, Bool.false_eq_true,
                    if_false, hscan, hstr, Bind.bind, Except.bind]
                · rw [lookupF_setF_self]
                · intro k hk
                  exact lookupF_setF_ne _ nid k _ hk
              | null => rw [hgi] at himgf; simp at himgf
              | bool b => rw [hgi] at himgf; simp at himgf
              | num n => rw [hgi] at himgf; simp at himgf
              | arr a => rw [hgi] at himgf; simp at himgf
              | obj o => rw [hgi] at himgf; simp at himgf
          | null => simp [WFImageB] at himg
          | bool b => simp [WFImageB] at himg
          | num n => simp [WFImageB] at himg
          | str sx => simp [WFImageB] at himg
          | arr a => simp [WFImageB] at himg
        | null => rw [hinp] at hwfn; simp at hwfn
        | bool b => rw [hinp] at hwfn; simp at hwfn
        | num n => rw [hinp] at hwfn; simp at hwfn
        | str sv => rw [hinp] at hwfn; simp at hwfn
        | arr a => rw [hinp] at hwfn; simp at hwfn
    | null => simp [nodeMatches] at hm
    | bool b => simp [nodeMatches] at hm
    | num n => simp [nodeMatches] at hm
    | str sv => simp [nodeMatches] at hm
    | arr a => simp [nodeMatches] at hm
  · intro hnone
    have hscan : scanNodes (.arr (img :: rest)) ws = .ok none := by
      have := scanNodes_skip (.arr (img :: rest)) ws []
        (fun q hq => ⟨hnodes q hq, hnone q hq⟩)
      rw [List.append_nil] at this
      rw [this]
      rfl
    obtain ⟨rs, es, hloop⟩ := uploadLoop_all env (img :: rest) 0 himgs hdec
    cases hes : es.isEmpty with
    | true =>
      refine ⟨.proceed (.obj ws), ?_⟩
      simp only [imageStage, htru, Bool.not_true, Bool.false_eq_true, if_false,
        hscan, upload_images, pyIterate, hloop, hes, uploadResultObj,
        pyIndexV, lookupF, Bind.bind, Except.bind]
      rfl
    | false =>
      refine ⟨.abort (uploadResultObj "error" "Some images failed to upload" es), ?_⟩
      simp only [imageStage, htru, Bool.not_true, Bool.false_eq_true, if_false,
        hscan, upload_images, pyIterate, hloop, hes, uploadResultObj,
        pyIndexV, lookupF, Bind.bind, Except.bind]
      rfl

/-- An inline-base64-capable node for the C2 witness. -/
def nodeB64 : JVal :=
  .obj [("class_type", .str "Base64ToImage"), ("inputs", .obj [("data", .str "old")])]

/-- A non-matching node for the C2 witness. -/
def nodeK : JVal :=
  .obj [("class_type", .str "KSampler"), ("inputs", .obj [])]

/-- A well-formed image input for the C2 witness. -/
def imgW : JVal := .obj [("name", .str "a"), ("image", .str "AAAA")]

theorem claim_C2_injection_or_upload_witness :
    (imageStage witEnv (.obj [("1", nodeK), ("2", nodeB64)]) (.arr [imgW])
      = .ok (.proceed (.obj (setF [("1", nodeK), ("2", nodeB64)] "2"
          (injectData nodeB64 (stripDataUrl (imageStrOf imgW))))), []) ∧
      lookupF (setF [("1", nodeK), ("2", nodeB64)] "2"
          (injectData nodeB64 (stripDataUrl (imageStrOf imgW)))) "2"
        = some (injectData nodeB64 (stripDataUrl (imageStrOf imgW))) ∧
      (∀ k, k ≠ "2" →
        lookupF (setF [("1", nodeK), ("2", nodeB64)] "2"
            (injectData nodeB64 (stripDataUrl (imageStrOf imgW)))) k
          = lookupF [("1", nodeK), ("2", nodeB64)] k)) ∧
    (∃ out, imageStage witEnv (.obj [("1", nodeK)]) (.arr [imgW])
      = .ok (out, [imgW].map
          (fun x => Event.uploadPost (nameOf x) (stripDataUrl (imageStrOf x))))) :=
  ⟨(claim_C2_injection_or_upload witEnv [("1", nodeK), ("2", nodeB64)] imgW []
      (by decide) (by decide) (by decide)).1 "2" nodeB64 [("1", nodeK)] []
      rfl (by decide) (by decide) (by decide),
   (claim_C2_injection_or_upload witEnv [("1", nodeK)] imgW []
      (by decide) (by decide) (by decide)).2 (by decide)⟩

/-! ### Claim C3 -/

/-- Well-formedness of the `images` field per the data model: absent
(Python `None`) or a list of well-formed image inputs. -/
def WFImagesB : JVal → Bool
  | .null => true
  | .arr xs => xs.all WFImageB
  | _ => false

/-- The `workflow_name` field, when truthy, must be a string (per the
data model) for the catalog lookup not to raise. -/
def WFNameB (v : JVal) : Bool :=
  !truthy v || (match v with | .str _ => true | _ => false)

/-- Well-formedness of a raw job input per the data model (§3): absent,
or a mapping whose `workflow_name` is a string when truthy and whose
`images` is absent or a list of well-formed image inputs. -/
def WFInputB : JVal → Bool
  | .null => true
  | .obj fs =>
    WFNameB ((lookupF fs "workflow_name").getD .null) &&
      WFImagesB ((lookupF fs "images").getD .null)
  | _ => false

/-- Well-formedness of a workflow per the data model (§3): a mapping of
well-formed node definitions. -/
def WFWorkflowB : JVal → Bool
  | .obj ns => ns.all (fun q => WFNodeB q.2)
  | _ => false

theorem hasNameImage_of_WFImageB (x : JVal) (h : WFImageB x = true) :
    hasNameImage x = true := by
  cases x with
  | obj g =>
    simp only [WFImageB, Bool.and_eq_true] at h
    obtain ⟨h1, h2⟩ := h
    cases hgi : lookupF g "image" with
    | none => rw [hgi] at h2; simp at h2
    | some v => simp [hasNameImage, JVal.get?, h1, hgi]
  | null => simp [WFImageB] at h
  | bool b => simp [WFImageB] at h
  | num n => simp [WFImageB] at h
  | str s => simp [WFImageB] at h
  | arr a => simp [WFImageB] at h

theorem validateImages_wf (wf images : JVal) (h : WFImagesB images = true) :
    validateImages wf images = .ok (.ok { workflow := wf, images := images }) := by
  cases images with
  | null => rfl
  | arr xs =>
    simp only [WFImagesB, List.all_eq_true] at h
    have hobj : ∀ x ∈ xs, ∃ g, x = JVal.obj g := by
      intro x hx
      have := h x hx
      cases x with
      | obj g => exact ⟨g, rfl⟩
      | null => simp [WFImageB] at this
      | bool b => simp [WFImageB] at this
      | num n => simp [WFImageB] at this
      | str s => simp [WFImageB] at this
      | arr a => simp [WFImageB] at this
    have hall : xs.all hasNameImage = true :=
      List.all_eq_true.2 (fun x hx => hasNameImage_of_WFImageB x (h x hx))
    simp [validateImages, JVal.isNull, checkImages_objs xs hobj, hall,
      Bind.bind, Except.bind]
  | bool b => simp [WFImagesB] at h
  | num n => simp [WFImagesB] at h
  | str s => simp [WFImagesB] at h
  | obj o => simp [WFImagesB] at h

theorem validate_wf (env : Env) (ji : JVal) (h : WFInputB ji = true) :
    (∃ m, validate_input env ji = .ok (.err m)) ∨
    (∃ vd, validate_input env ji = .ok (.ok vd) ∧ WFImagesB vd.images = true) := by
  cases ji with
  | null => exact .inl ⟨"Please provide input", rfl⟩
  | obj fs =>
    simp only [WFInputB, Bool.and_eq_true] at h
    obtain ⟨hname, himg⟩ := h
    have hpgw : pyGet (.obj fs) "workflow"
        = .ok ((lookupF fs "workflow").getD .null) := by simp [pyGet]
    have hpgn : pyGet (.obj fs) "workflow_name"
        = .ok ((lookupF fs "workflow_name").getD .null) := by simp [pyGet]
    have hpgi : pyGet (.obj fs) "images"
        = .ok ((lookupF fs "images").getD .null) := by simp [pyGet]
    by_cases hw : truthy ((lookupF fs "workflow").getD .null) = false
    · by_cases hn : truthy ((lookupF fs "workflow_name").getD .null) = false
      · exact .inl ⟨"Missing \x27workflow\x27 or \x27workflow_name\x27 parameter",
          by simp [validate_input, hpgw, hpgn, hw, hn, JVal.isNull,
            Bind.bind, Except.bind, Pure.pure, Except.pure]⟩
      · rw [Bool.not_eq_false] at hn
        have hstr : ∃ s, (lookupF fs "workflow_name").getD .null = .str s := by
          simp only [WFNameB, hn, Bool.not_true, Bool.false_or] at hname
          cases hv : (lookupF fs "workflow_name").getD .null with
          | str s => exact ⟨s, rfl⟩
          | null => rw [hv] at hname; simp at hname
          | bool b => rw [hv] at hname; simp at hname
          | num n => rw [hv] at hname; simp at hname
          | arr a => rw [hv] at hname; simp at hname
          | obj o => rw [hv] at hname; simp at hname
        obtain ⟨s, hs⟩ := hstr
        have hst : truthy (JVal.str s) = true := by rw [← hs]; exact hn
        cases hl : load_workflow_by_name env s with
        | none =>
          exact .inl ⟨"Could not load workflow: " ++ s,
            by simp [validate_input, hpgw, hpgn, hw, hn, hs, hst, pyStr?, hl,
              JVal.isNull, Bind.bind, Except.bind, Pure.pure, Except.pure]⟩
        | some w2 =>
          by_cases ht : truthy w2 = false
          · exact .inl ⟨"Could not load workflow: " ++ s,
              by simp [validate_input, hpgw, hpgn, hw, hn, hs, hst, pyStr?, hl, ht,
                JVal.isNull, Bind.bind, Except.bind, Pure.pure, Except.pure]⟩
          · rw [Bool.not_eq_false] at ht
            refine .inr ⟨⟨w2, (lookupF fs "images").getD .null⟩, ?_, himg⟩
            simp [validate_input, hpgw, hpgn, hw, hn, hs, hst, pyStr?, hl, ht,
              hpgi, validateImages_wf _ _ himg, JVal.isNull,
              Bind.bind, Except.bind, Pure.pure, Except.pure]
    · rw [Bool.not_eq_false] at hw
      by_cases hn : truthy ((lookupF fs "workflow_name").getD .null) = true
      · have hstr : ∃ s, (lookupF fs "workflow_name").getD .null = .str s := by
          simp only [WFNameB, hn, Bool.not_true, Bool.false_or] at hname
          cases hv : (lookupF fs "workflow_name").getD .null with
          | str s => exact ⟨s, rfl⟩
          | null => rw [hv] at hname; simp at hname
          | bool b => rw [hv] at hname; simp at hname
          | num n => rw [hv] at hname; simp at hname
          | arr a => rw [hv] at hname; simp at hname
          | obj o => rw [hv] at hname; simp at hname
        obtain ⟨s, hs⟩ := hstr
        have hst : truthy (JVal.str s) = true := by rw [← hs]; exact hn
        cases hl : load_workflow_by_name env s with
        | none =>
          exact .inl ⟨"Could not load workflow: " ++ s,
            by simp [validate_input, hpgw, hpgn, hw, hn, hs, hst, pyStr?, hl,
              JVal.isNull, Bind.bind, Except.bind, Pure.pure, Except.pure]⟩
        | some w2 =>
          by_cases ht : truthy w2 = false
          · exact .inl ⟨"Could not load workflow: " ++ s,
              by simp [validate_input, hpgw, hpgn, hw, hn, hs, hst, pyStr?, hl, ht,
                JVal.isNull, Bind.bind, Except.bind, Pure.pure, Except.pure]⟩
          · rw [Bool.not_eq_false] at ht
            refine .inr ⟨⟨w2, (lookupF fs "images").getD .null⟩, ?_, himg⟩
            simp [validate_input, hpgw, hpgn, hw, hn, hs, hst, pyStr?, hl, ht,
              hpgi, validateImages_wf _ _ himg, JVal.isNull,
              Bind.bind, Except.bind, Pure.pure, Except.pure]
      · rw [Bool.not_eq_true] at hn
        refine .inr ⟨⟨(lookupF fs "workflow").getD .null,
          (lookupF fs "images").getD .null⟩, ?_, himg⟩
        simp [validate_input, hpgw, hpgn, hw, hn, hpgi,
          validateImages_wf _ _ himg, JVal.isNull,
          Bind.bind, Except.bind, Pure.pure, Except.pure]
  | bool b => simp [WFInputB] at h
  | num n => simp [WFInputB] at h
  | str s => simp [WFInputB] at h
  | arr a => simp [WFInputB] at h

theorem scanNodes_wf (xs : List JVal)
    (himgs : ∀ x ∈ xs, WFImageB x = true) :
    ∀ ws : List (String × JVal), (∀ q ∈ ws, WFNodeB q.2 = true) →
    ∃ o, scanNodes (.arr xs) ws = .ok o
  | [], _ => ⟨none, rfl⟩
  | (nid, nd) :: rest, hnodes => by
    have hwf := hnodes (nid, nd) (by simp)
    cases nd with
    | obj nfs =>
      by_cases hm : isBase64NodeType ((lookupF nfs "class_type").getD .null)
      · cases xs with
        | nil =>
          obtain ⟨o, ho⟩ := scanNodes_wf [] (by simp) rest
            (fun q hq => hnodes q (by simp [hq]))
          exact ⟨o, by simp [scanNodes, hm, pyIterate, Bind.bind, Except.bind, ho]⟩
        | cons x xt =>
          have hx := himgs x (by simp)
          cases x with
          | obj g =>
            simp only [WFImageB, Bool.and_eq_true] at hx
            obtain ⟨hn1, hi1⟩ := hx
            cases hgi : lookupF g "image" with
            | none => rw [hgi] at hi1; simp at hi1
            | some iv =>
              cases iv with
              | str s =>
                simp only [WFNodeB] at hwf
                cases hinp : lookupF nfs "inputs" with
                | none => rw [hinp] at hwf; simp at hwf
                | some inv =>
                  cases inv with
                  | obj ifs =>
                    refine ⟨some (nid, .obj (setF nfs "inputs"
                      (.obj (setF ifs "data" (.str (stripDataUrl s)))))), ?_⟩
                    simp [scanNodes, hm, pyIterate, pyIndexV, hgi, pyStr?,
                      hinp, Bind.bind, Except.bind]
                  | null => rw [hinp] at hwf; simp at hwf
                  | bool b => rw [hinp] at hwf; simp at hwf
                  | num n => rw [hinp] at hwf; simp at hwf
                  | str s2 => rw [hinp] at hwf; simp at hwf
                  | arr a => rw [hinp] at hwf; simp at hwf
              | null => rw [hgi] at hi1; simp at hi1
              | bool b => rw [hgi] at hi1; simp at hi1
              | num n => rw [hgi] at hi1; simp at hi1
              | arr a => rw [hgi] at hi1; simp at hi1
              | obj o2 => rw [hgi] at hi1; simp at hi1
          | null => simp [WFImageB] at hx
          | bool b => simp [WFImageB] at hx
          | num n => simp [WFImageB] at hx
          | str s2 => simp [WFImageB] at hx
          | arr a => simp [WFImageB] at hx
      · obtain ⟨o, ho⟩ := scanNodes_wf xs himgs rest
          (fun q hq => hnodes q (by simp [hq]))
        exact ⟨o, by simp [scanNodes, hm, ho]⟩
    | null => simp [WFNodeB] at hwf
    | bool b => simp [WFNodeB] at hwf
    | num n => simp [WFNodeB] at hwf
    | str s => simp [WFNodeB] at hwf
    | arr a => simp [WFNodeB] at hwf

theorem uploadLoop_total (env : Env) : ∀ (xs : List JVal) (idx : Nat),
    (∀ x ∈ xs, WFImageB x = true) →
    ∃ t, uploadLoop env idx xs = .ok t
  | [], _, _ => ⟨([], [], []), rfl⟩
  | x :: rest, idx, hwf => by
    have hx := hwf x (by simp)
    obtain ⟨t, ht⟩ := uploadLoop_total env rest (idx + 1)
      (fun y hy => hwf y (by simp [hy]))
    cases x with
    | obj g =>
      simp only [WFImageB, Bool.and_eq_true] at hx
      obtain ⟨hn1, hi1⟩ := hx
      obtain ⟨nv, hnv⟩ := Option.isSome_iff_exists.1 hn1
      cases hgi : lookupF g "image" with
      | none => rw [hgi] at hi1; simp at hi1
      | some iv =>
        cases iv with
        | str s =>
          by_cases hdec : b64decodeOk (stripDataUrl s)
          · cases hus : env.uploadStatus idx with
            | mk code text =>
              by_cases hcode : code = 200
              · exact ⟨(("Successfully uploaded " ++ pyShow nv) :: t.1, t.2.1,
                    Event.uploadPost nv (stripDataUrl s) :: t.2.2),
                  by simp [uploadLoop, uploadOne, pyIndexV, hnv, hgi,
                    pyStr?, hdec, hus, hcode, ht, Bind.bind, Except.bind]⟩
              · exact ⟨(t.1, ("Error uploading " ++ pyShow nv ++ ": " ++ text) :: t.2.1,
                    Event.uploadPost nv (stripDataUrl s) :: t.2.2),
                  by simp [uploadLoop, uploadOne, pyIndexV, hnv, hgi,
                    pyStr?, hdec, hus, hcode, ht, Bind.bind, Except.bind]⟩
          · exact ⟨(t.1, ("Error decoding " ++ pyShow nv ++ ": Invalid padding") :: t.2.1,
                t.2.2),
              by simp [uploadLoop, uploadOne, pyIndexV, hnv, hgi,
                pyStr?, hdec, ht, Bind.bind, Except.bind]⟩
        | null => rw [hgi] at hi1; simp at hi1
        | bool b => rw [hgi] at hi1; simp at hi1
        | num n => rw [hgi] at hi1; simp at hi1
        | arr a => rw [hgi] at hi1; simp at hi1
        | obj o2 => rw [hgi] at hi1; simp at hi1
    | null => simp [WFImageB] at hx
    | bool b => simp [WFImageB] at hx
    | num n => simp [WFImageB] at hx
    | str s2 => simp [WFImageB] at hx
    | arr a => simp [WFImageB] at hx

theorem imageStage_wf (env : Env) (wf images : JVal)
    (hwf : WFWorkflowB wf = true) (him : WFImagesB images = true) :
    ∃ r, imageStage env wf images = .ok r := by
  by_cases htru : truthy images
  · cases images with
    | arr xs =>
      cases wf with
      | obj ws =>
        simp only [WFWorkflowB, List.all_eq_true] at hwf
        simp only [WFImagesB, List.all_eq_true] at him
        obtain ⟨o, ho⟩ := scanNodes_wf xs him ws hwf
        cases o with
        | some p =>
          obtain ⟨nid, nd⟩ := p
          exact ⟨(.proceed (.obj (setF ws nid nd)), []),
            by simp [imageStage, htru, ho, Bind.bind, Except.bind]⟩
        | none =>
          obtain ⟨⟨rs, es, evs⟩, ht⟩ := uploadLoop_total env xs 0 him
          cases hes : es.isEmpty with
          | true =>
            refine ⟨(.proceed (.obj ws), evs), ?_⟩
            simp only [imageStage, htru, Bool.not_true, Bool.false_eq_true,
              if_false, ho, upload_images, pyIterate, ht, hes,
              uploadResultObj, pyIndexV, lookupF, Bind.bind, Except.bind]
            rfl
          | false =>
            refine ⟨(.abort (uploadResultObj "error"
                "Some images failed to upload" es), evs), ?_⟩
            simp only [imageStage, htru, Bool.not_true, Bool.false_eq_true,
              if_false, ho, upload_images, pyIterate, ht, hes,
              uploadResultObj, pyIndexV, lookupF, Bind.bind, Except.bind]
            rfl
      | null => simp [WFWorkflowB] at hwf
      | bool b => simp [WFWorkflowB] at hwf
      | num n => simp [WFWorkflowB] at hwf
      | str s => simp [WFWorkflowB] at hwf
      | arr a => simp [WFWorkflowB] at hwf
    | null => simp [truthy] at htru
    | bool b => simp [WFImagesB] at him
    | num n => simp [WFImagesB] at him
    | str s => simp [WFImagesB] at him
    | obj o => simp [WFImagesB] at him
  · exact ⟨(.proceed wf, []), by simp [imageStage, htru]⟩

theorem pollLoopAux_completed_src (fetch : Nat → Except PyExc JVal) (pid : JVal) :
    ∀ (rem start : Nat) (h : JVal) (n : Nat),
    pollLoopAux fetch pid start rem = .completed h n →
    ∃ k, fetch k = .ok h ∧ histCompleted pid h = .ok true
  | 0, start, h, n, heq => by simp [pollLoopAux] at heq
  | rem + 1, start, h, n, heq => by
    simp only [pollLoopAux] at heq
    cases hf : fetch start with
    | error m => rw [hf] at heq; simp at heq
    | ok g =>
      simp only [hf] at heq
      cases hc : histCompleted pid g with
      | error m => simp only [hc] at heq; simp at heq
      | ok b =>
        simp only [hc] at heq
        cases b with
        | true =>
          simp only at heq
          cases heq
          exact ⟨start, hf, hc⟩
        | false =>
          simp only at heq
          exact pollLoopAux_completed_src fetch pid rem (start + 1) h n heq

theorem histCompleted_ok_outputs (pid h : JVal)
    (hc : histCompleted pid h = .ok true) :
    ∃ outs, (pyIndexV h pid).bind (fun e => pyGet e "outputs") = .ok outs ∧
      truthy outs = true := by
  simp only [histCompleted, Bind.bind, Except.bind] at hc
  cases hcc : pyContainsV h pid with
  | error m => rw [hcc] at hc; simp at hc
  | ok cx =>
    simp only [hcc] at hc
    cases cx with
    | false => simp at hc
    | true =>
      simp only [if_true] at hc
      cases he : pyIndexV h pid with
      | error m => simp only [he] at hc; simp at hc
      | ok e =>
        simp only [he] at hc
        cases ho : pyGet e "outputs" with
        | error m => simp only [ho] at hc; simp at hc
        | ok o =>
          simp only [ho] at hc
          refine ⟨o, ?_, ?_⟩
          · simp [he, ho, Except.bind]
          · simpa using hc

theorem uploadOne_evs (env : Env) (idx : Nat) (x : JVal)
    (u : Option String × Option String × List Event)
    (h : uploadOne env idx x = .ok u) :
    ∀ e ∈ u.2.2, ∃ nm d, e = Event.uploadPost nm d := by
  simp only [uploadOne, Bind.bind, Except.bind] at h
  cases h1 : pyIndexV x (.str "name") with
  | error m => rw [h1] at h; simp at h
  | ok nm =>
    simp only [h1] at h
    cases h2 : pyIndexV x (.str "image") with
    | error m => simp only [h2] at h; simp at h
    | ok dv =>
      simp only [h2] at h
      cases h3 : pyStr? dv with
      | error m => simp only [h3] at h; simp at h
      | ok ds =>
        simp only [h3] at h
        split at h
        · split at h
          · cases h
            intro e he
            simp at he
            exact ⟨nm, stripDataUrl ds, he⟩
          · cases h
            intro e he
            simp at he
            exact ⟨nm, stripDataUrl ds, he⟩
        · cases h
          intro e he
          simp at he

theorem uploadLoop_evs (env : Env) : ∀ (xs : List JVal) (idx : Nat)
    (t : List String × List String × List Event),
    uploadLoop env idx xs = .ok t →
    ∀ e ∈ t.2.2, ∃ nm d, e = Event.uploadPost nm d
  | [], idx, t, h => by
    simp only [uploadLoop] at h
    cases h
    simp
  | x :: rest, idx, t, h => by
    simp only [uploadLoop, Bind.bind, Except.bind] at h
    cases h1 : uploadOne env idx x with
    | error m => rw [h1] at h; simp at h
    | ok u =>
      simp only [h1] at h
      cases h2 : uploadLoop env (idx + 1) rest with
      | error m => simp only [h2] at h; simp at h
      | ok t2 =>
        simp only [h2] at h
        cases h
        intro e he
        simp only [List.mem_append] at he
        rcases he with he | he
        · exact uploadOne_evs env idx x u h1 e he
        · exact uploadLoop_evs env rest (idx + 1) t2 h2 e he

theorem upload_images_evs (env : Env) (images : JVal) (res : JVal)
    (evs : List Event) (h : upload_images env images = .ok (res, evs)) :
    ∀ e ∈ evs, ∃ nm d, e = Event.uploadPost nm d := by
  simp only [upload_images, Bind.bind, Except.bind] at h
  by_cases htru : truthy images
  · simp only [htru, Bool.not_true, Bool.false_eq_true, if_false] at h
    cases h1 : pyIterate images with
    | error m => rw [h1] at h; simp at h
    | ok imgs =>
      simp only [h1] at h
      cases h2 : uploadLoop env 0 imgs with
      | error m => simp only [h2] at h; simp at h
      | ok t =>
        simp only [h2] at h
        by_cases h3 : t.2.1.isEmpty
        · simp only [h3, if_true] at h
          cases h
          exact uploadLoop_evs env imgs 0 t h2
        · simp only [h3, if_false] at h
          cases h
          exact uploadLoop_evs env imgs 0 t h2
  · simp only [htru] at h
    simp only [Bool.not_false, if_true] at h
    cases h
    simp

theorem imageStage_evs (env : Env) (wf images : JVal) (st : StageOut)
    (evs : List Event) (h : imageStage env wf images = .ok (st, evs)) :
    ∀ e ∈ evs, ∃ nm d, e = Event.uploadPost nm d := by
  simp only [imageStage, Bind.bind, Except.bind] at h
  by_cases htru : truthy images
  · simp only [htru, Bool.not_true, Bool.false_eq_true, if_false] at h
    cases wf with
    | obj ws =>
      cases h1 : scanNodes images ws with
      | error m => simp only [h1] at h; simp at h
      | ok o =>
        simp only [h1] at h
        cases o with
        | some p =>
          obtain ⟨nid, nd⟩ := p
          cases h
          simp
        | none =>
          cases h2 : upload_images env images with
          | error m => simp only [h2] at h; simp at h
          | ok re =>
            obtain ⟨res, uevs⟩ := re
            simp only [h2] at h
            cases h3 : pyIndexV res (.str "status") with
            | error m => simp only [h3] at h; simp at h
            | ok stv =>
              simp only [h3] at h
              have hup := upload_images_evs env images res uevs h2
              split at h
              · cases h
                exact hup
              · cases h
                exact hup
    | null => simp at h
    | bool b => simp at h
    | num n => simp at h
    | str s => simp at h
    | arr a => simp at h
  · simp only [htru] at h
    simp only [Bool.not_false, if_true] at h
    cases h
    simp

theorem upload_images_shape (env : Env) (images res : JVal) (evs : List Event)
    (h : upload_images env images = .ok (res, evs)) :
    (∃ m rs, res = uploadResultObj "success" m rs) ∨
    (∃ es, res = uploadResultObj "error" "Some images failed to upload" es) := by
  simp only [upload_images, Bind.bind, Except.bind] at h
  by_cases htru : truthy images
  · simp only [htru, Bool.not_true, Bool.false_eq_true, if_false] at h
    cases h1 : pyIterate images with
    | error m => rw [h1] at h; simp at h
    | ok imgs =>
      simp only [h1] at h
      cases h2 : uploadLoop env 0 imgs with
      | error m => simp only [h2] at h; simp at h
      | ok t =>
        simp only [h2] at h
        by_cases h3 : t.2.1.isEmpty
        · simp only [h3, if_true] at h
          cases h
          exact .inl ⟨_, _, rfl⟩
        · simp only [h3, if_false] at h
          cases h
          exact .inr ⟨_, rfl⟩
  · simp only [htru] at h
    simp only [Bool.not_false, if_true] at h
    cases h
    exact .inl ⟨_, _, rfl⟩

theorem imageStage_abort_shape (env : Env) (wf images res : JVal)
    (evs : List Event) (h : imageStage env wf images = .ok (.abort res, evs)) :
    ∃ es, res = uploadResultObj "error" "Some images failed to upload" es := by
  simp only [imageStage, Bind.bind, Except.bind] at h
  by_cases htru : truthy images
  · simp only [htru, Bool.not_true, Bool.false_eq_true, if_false] at h
    cases wf with
    | obj ws =>
      cases h1 : scanNodes images ws with
      | error m => simp only [h1] at h; simp at h
      | ok o =>
        simp only [h1] at h
        cases o with
        | some p =>
          obtain ⟨nid, nd⟩ := p
          simp at h
        | none =>
          cases h2 : upload_images env images with
          | error m => simp only [h2] at h; simp at h
          | ok re =>
            obtain ⟨res2, uevs⟩ := re
            simp only [h2] at h
            cases h3 : pyIndexV res2 (.str "status") with
            | error m => simp only [h3] at h; simp at h
            | ok stv =>
              simp only [h3] at h
              rcases upload_images_shape env images res2 uevs h2 with
                ⟨m, rs, rfl⟩ | ⟨es, rfl⟩
              · have hstv : stv = .str "success" := by
                  have : pyIndexV (uploadResultObj "success" m rs) (.str "status")
                      = .ok (.str "success") := rfl
                  rw [this] at h3
                  exact (Except.ok.inj h3).symm
                subst hstv
                simp at h
              · have hstv : stv = .str "error" := by
                  have : pyIndexV (uploadResultObj "error"
                      "Some images failed to upload" es) (.str "status")
                      = .ok (.str "error") := rfl
                  rw [this] at h3
                  exact (Except.ok.inj h3).symm
                subst hstv
                simp only at h
                cases h
                exact ⟨es, rfl⟩
    | null => simp at h
    | bool b => simp at h
    | num n => simp at h
    | str s => simp at h
    | arr a => simp at h
  · simp only [htru] at h
    simp only [Bool.not_false, if_true] at h
    simp at h


def WFImageRecB : JVal → Bool
  | .obj g =>
    (match lookupF g "filename" with | some (.str _) => true | _ => false) &&
      (match lookupF g "subfolder" with
       | none => true | some (.str _) => true | some _ => false)
  | _ => false

def WFNodeOutB : JVal → Bool
  | .obj g =>
    (match lookupF g "images" with
     | none => true | some (.arr xs) => xs.all WFImageRecB | some _ => false)
  | _ => false

def WFOutputsB : JVal → Bool
  | .obj ns => ns.all (fun q => WFNodeOutB q.2)
  | _ => false

def WFHistEntryB : JVal → Bool
  | .obj g =>
    (match lookupF g "outputs" with | none => true | some o => WFOutputsB o)
  | _ => false

def WFHistoryB : JVal → Bool
  | .obj es => es.all (fun q => WFHistEntryB q.2)
  | _ => false

theorem structuredOne_wf (env : Env) (img : JVal) (h : WFImageRecB img = true) :
    ∃ t, structuredOne env img = .ok t := by
  cases img with
  | obj g =>
    simp only [WFImageRecB, Bool.and_eq_true] at h
    obtain ⟨h1, h2⟩ := h
    cases hfn : lookupF g "filename" with
    | none => rw [hfn] at h1; simp at h1
    | some fv =>
      cases fv with
      | str fns =>
        cases hsub : lookupF g "subfolder" with
        | none =>
          by_cases hp : env.pathExists (pjoin3 env.outputPath "" fns)
          · exact ⟨([pjoin3 env.outputPath "" fns],
                [Event.fsExists (pjoin3 env.outputPath "" fns)]),
              by simp [structuredOne, pyGetD, hsub, pyStr?, pyIndexV,
                hfn, hp, Bind.bind, Except.bind]⟩
          · exact ⟨([], [Event.fsExists (pjoin3 env.outputPath "" fns)]),
              by simp [structuredOne, pyGetD, hsub, pyStr?, pyIndexV,
                hfn, hp, Bind.bind, Except.bind]⟩
        | some sv =>
          rw [hsub] at h2
          cases sv with
          | str ss =>
            by_cases hp : env.pathExists (pjoin3 env.outputPath ss fns)
            · exact ⟨([pjoin3 env.outputPath ss fns],
                  [Event.fsExists (pjoin3 env.outputPath ss fns)]),
                by simp [structuredOne, pyGetD, hsub, pyStr?, pyIndexV,
                  hfn, hp, Bind.bind, Except.bind]⟩
            · exact ⟨([], [Event.fsExists (pjoin3 env.outputPath ss fns)]),
                by simp [structuredOne, pyGetD, hsub, pyStr?, pyIndexV,
                  hfn, hp, Bind.bind, Except.bind]⟩
          | null => simp at h2
          | bool b => simp at h2
          | num n => simp at h2
          | arr a => simp at h2
          | obj o => simp at h2
      | null => rw [hfn] at h1; simp at h1
      | bool b => rw [hfn] at h1; simp at h1
      | num n => rw [hfn] at h1; simp at h1
      | arr a => rw [hfn] at h1; simp at h1
      | obj o => rw [hfn] at h1; simp at h1
  | null => simp [WFImageRecB] at h
  | bool b => simp [WFImageRecB] at h
  | num n => simp [WFImageRecB] at h
  | str s => simp [WFImageRecB] at h
  | arr a => simp [WFImageRecB] at h

theorem structuredImgs_wf (env : Env) : ∀ (imgs : List JVal),
    (∀ x ∈ imgs, WFImageRecB x = true) →
    ∃ t, structuredImgs env imgs = .ok t
  | [], _ => ⟨([], []), rfl⟩
  | img :: rest, h => by
    obtain ⟨t1, h1⟩ := structuredOne_wf env img (h img (by simp))
    obtain ⟨t2, h2⟩ := structuredImgs_wf env rest (fun y hy => h y (by simp [hy]))
    exact ⟨(t1.1 ++ t2.1, t1.2 ++ t2.2),
      by simp [structuredImgs, h1, h2, Bind.bind, Except.bind]⟩

theorem structuredNode_wf (env : Env) (nout : JVal)
    (h : WFNodeOutB nout = true) : ∃ t, structuredNode env nout = .ok t := by
  cases nout with
  | obj g =>
    simp only [WFNodeOutB] at h
    cases hi : lookupF g "images" with
    | none =>
      exact ⟨([], []), by simp [structuredNode, pyContainsV, hi,
        Bind.bind, Except.bind]⟩
    | some iv =>
      rw [hi] at h
      cases iv with
      | arr xs =>
        simp only [List.all_eq_true] at h
        obtain ⟨t, ht⟩ := structuredImgs_wf env xs h
        exact ⟨t, by simp [structuredNode, pyContainsV, hi, pyIndexV,
          pyIterate, ht, Bind.bind, Except.bind]⟩
      | null => simp at h
      | bool b => simp at h
      | num n => simp at h
      | str s => simp at h
      | obj o => simp at h
  | null => simp [WFNodeOutB] at h
  | bool b => simp [WFNodeOutB] at h
  | num n => simp [WFNodeOutB] at h
  | str s => simp [WFNodeOutB] at h
  | arr a => simp [WFNodeOutB] at h

theorem structuredNodes_wf (env : Env) : ∀ (ns : List (String × JVal)),
    (∀ q ∈ ns, WFNodeOutB q.2 = true) →
    ∃ t, structuredNodes env ns = .ok t
  | [], _ => ⟨([], []), rfl⟩
  | (nid, nout) :: rest, h => by
    obtain ⟨t1, h1⟩ := structuredNode_wf env nout (h (nid, nout) (by simp))
    obtain ⟨t2, h2⟩ := structuredNodes_wf env rest (fun q hq => h q (by simp [hq]))
    exact ⟨(t1.1 ++ t2.1, t1.2 ++ t2.2),
      by simp [structuredNodes, h1, h2, Bind.bind, Except.bind]⟩

theorem process_output_wf (env : Env) (outs : JVal) (jid : String)
    (h : WFOutputsB outs = true) :
    ∃ r evs, process_output_images env outs jid = (.ok r, evs) := by
  cases outs with
  | obj ns =>
    simp only [WFOutputsB, List.all_eq_true] at h
    obtain ⟨⟨ps, evs⟩, ht⟩ := structuredNodes_wf env ns h
    have hcs : collectStructured env (.obj ns) = (.ok ps, evs) := by
      simp [collectStructured, ht]
    cases hres : process_output_images env (.obj ns) jid with
    | mk r evs2 =>
      cases r with
      | ok rr => exact ⟨rr, evs2, rfl⟩
      | error m =>
        exfalso
        simp only [process_output_images, hcs] at hres
        split at hres <;> split at hres <;> simp_all
  | null => simp [WFOutputsB] at h
  | bool b => simp [WFOutputsB] at h
  | num n => simp [WFOutputsB] at h
  | str s => simp [WFOutputsB] at h
  | arr a => simp [WFOutputsB] at h

theorem lookupF_mem (fs : List (String × JVal)) (k : String) (v : JVal)
    (h : lookupF fs k = some v) : (k, v) ∈ fs := by
  induction fs with
  | nil => simp [lookupF] at h
  | cons q rest ih =>
    obtain ⟨a, b⟩ := q
    simp only [lookupF] at h
    by_cases ha : a = k
    · rw [if_pos ha] at h
      cases h
      simp [ha]
    · rw [if_neg ha] at h
      simp [ih h]

theorem histOutputs_wf (pid h outs : JVal) (hwf : WFHistoryB h = true)
    (hc : (pyIndexV h pid).bind (fun e => pyGet e "outputs") = .ok outs)
    (ht : truthy outs = true) : WFOutputsB outs = true := by
  cases he : pyIndexV h pid with
  | error m => rw [he] at hc; simp [Except.bind] at hc
  | ok e =>
    rw [he] at hc
    simp only [Except.bind] at hc
    cases h with
    | obj es =>
      cases pid with
      | str k =>
        simp only [pyIndexV] at he
        cases hl : lookupF es k with
        | none => rw [hl] at he; simp at he
        | some ev =>
          rw [hl] at he
          cases he
          have hmem := lookupF_mem es k e hl
          simp only [WFHistoryB, List.all_eq_true] at hwf
          have hentry := hwf (k, e) hmem
          cases e with
          | obj g =>
            simp only [WFHistEntryB] at hentry
            simp only [pyGet] at hc
            cases ho : lookupF g "outputs" with
            | none =>
              rw [ho] at hc
              simp only [Option.getD] at hc
              cases hc
              simp [truthy] at ht
            | some o =>
              rw [ho] at hc
              simp only [Option.getD] at hc
              cases hc
              rw [ho] at hentry
              exact hentry
          | null => simp [pyGet] at hc
          | bool b => simp [pyGet] at hc
          | num n => simp [pyGet] at hc
          | str s => simp [pyGet] at hc
          | arr a => simp [pyGet] at hc
      | null => simp [pyIndexV] at he
      | bool b => simp [pyIndexV] at he
      | num n => simp [pyIndexV] at he
      | arr a => simp [pyIndexV] at he
      | obj o => simp [pyIndexV] at he
    | null => simp [WFHistoryB] at hwf
    | bool b => simp [WFHistoryB] at hwf
    | num n => simp [WFHistoryB] at hwf
    | str s => simp [WFHistoryB] at hwf
    | arr a => simp [WFHistoryB] at hwf

def isQueueOrLater : Event → Bool
  | .queuePost _ => true
  | .historyGet _ => true
  | .fsExists _ => true
  | .fsWalk => true
  | .s3Upload _ _ => true
  | .fileRead _ => true
  | _ => false

def isPollOrLater : Event → Bool
  | .historyGet _ => true
  | .fsExists _ => true
  | .fsWalk => true
  | .s3Upload _ _ => true
  | .fileRead _ => true
  | _ => false

def isOutputEvent : Event → Bool
  | .fsExists _ => true
  | .fsWalk => true
  | .s3Upload _ _ => true
  | .fileRead _ => true
  | _ => false

/-- Claim C3 (amended): for jobs whose raw input is well-formed per the
data model, whose resolved workflow is well-formed, and whose backend
history responses are well-formed, no failure escapes the handler as an
unhandled exception, and each stage failure short-circuits: a validation
failure yields `{"error": msg}` with no external call at all; an
image-upload failure ends the job with the uploader's own
`{"status": "error", ...}` mapping — which, contrary to the original
claim, carries no `"error"` key — and no submission, polling or output
event; a submission failure yields `{"error": ...}` with no polling or
output event; a polling exception or retry-budget exhaustion yields
`{"error": ...}` with no output-stage event. -/
theorem claim_C3_error_shortcircuit (env : Env) (probe : Nat → Option Nat) (job : Job)
    (hin : WFInputB job.input = true)
    (hwf : ∀ vd, validate_input env job.input = .ok (.ok vd) →
      WFWorkflowB vd.workflow = true)
    (henv : ∀ k h, env.fetchHistory k = .ok h → WFHistoryB h = true) :
    (∃ r, (handler env probe job).1 = .ok r) ∧
    (∀ m, validate_input env job.input = .ok (.err m) →
      handler env probe job = (.ok (errObj m), [])) ∧
    (∀ vd res evs, validate_input env job.input = .ok (.ok vd) →
      imageStage env vd.workflow vd.images = .ok (.abort res, evs) →
      (handler env probe job).1 = .ok res ∧
      res.get? "status" = some (.str "error") ∧ res.get? "error" = none ∧
      (handler env probe job).2.all (fun e => !isQueueOrLater e) = true) ∧
    (∀ vd wf evs m, validate_input env job.input = .ok (.ok vd) →
      imageStage env vd.workflow vd.images = .ok (.proceed wf, evs) →
      queueStage env = .error m →
      (handler env probe job).1 = .ok (errObj ("Error queuing workflow: " ++ m)) ∧
      (handler env probe job).2.all (fun e => !isPollOrLater e) = true) ∧
    (∀ vd wf evs pid, validate_input env job.input = .ok (.ok vd) →
      imageStage env vd.workflow vd.images = .ok (.proceed wf, evs) →
      queueStage env = .ok pid →
      (∀ m n, pollLoop env.fetchHistory pid env.pollMax = .errored m n →
        (handler env probe job).1
          = .ok (errObj ("Error waiting for image generation: " ++ m)) ∧
        (handler env probe job).2.all (fun e => !isOutputEvent e) = true) ∧
      (∀ n, pollLoop env.fetchHistory pid env.pollMax = .exhausted n →
        (handler env probe job).1
          = .ok (errObj "Max retries reached while waiting for image generation") ∧
        (handler env probe job).2.all (fun e => !isOutputEvent e) = true)) := by
  refine ⟨?_, ?_, ?_, ?_, ?_⟩
  · -- totality
    rcases validate_wf env job.input hin with ⟨m, hv⟩ | ⟨vd, hv, him⟩
    · exact ⟨errObj m, by simp [handler, hv]⟩
    · obtain ⟨⟨st, evs⟩, hstage⟩ :=
        imageStage_wf env vd.workflow vd.images (hwf vd hv) him
      cases st with
      | abort res =>
        exact ⟨res, by simp [handler, hv, handlerAfterValidate, hstage]⟩
      | proceed wf2 =>
        cases hqs : queueStage env with
        | error m =>
          exact ⟨errObj ("Error queuing workflow: " ++ m),
            by simp [handler, hv, handlerAfterValidate, hstage, hqs]⟩
        | ok pid =>
          cases hpl : pollLoop env.fetchHistory pid env.pollMax with
          | errored m n =>
            exact ⟨errObj ("Error waiting for image generation: " ++ m),
              by simp [handler, hv, handlerAfterValidate, hstage, hqs, hpl]⟩
          | exhausted n =>
            exact ⟨errObj "Max retries reached while waiting for image generation",
              by simp [handler, hv, handlerAfterValidate, hstage, hqs, hpl]⟩
          | completed h n =>
            obtain ⟨k, hfk, hck⟩ :=
              pollLoopAux_completed_src env.fetchHistory pid env.pollMax 0 h n hpl
            obtain ⟨outs, hout, htout⟩ := histCompleted_ok_outputs pid h hck
            have hwo : WFOutputsB outs = true :=
              histOutputs_wf pid h outs (henv k h hfk) hout htout
            obtain ⟨r, oevs, hproc⟩ := process_output_wf env outs job.id hwo
            exact ⟨mergeRefresh r env.refreshWorker,
              by simp [handler, hv, handlerAfterValidate, hstage, hqs, hpl,
                hout, hproc]⟩
  · intro m hv
    simp [handler, hv]
  · intro vd res evs hv hstage
    obtain ⟨es, rfl⟩ :=
      imageStage_abort_shape env vd.workflow vd.images res evs hstage
    refine ⟨by simp [handler, hv, handlerAfterValidate, hstage], rfl, rfl, ?_⟩
    simp only [handler, hv, handlerAfterValidate, hstage]
    rw [List.all_eq_true]
    intro e he
    rcases List.mem_append.1 he with hp1 | hu
    · obtain ⟨k, _, rfl⟩ := List.mem_map.1 hp1
      rfl
    · obtain ⟨nm, d, rfl⟩ :=
        imageStage_evs env vd.workflow vd.images _ evs hstage e hu
      rfl
  · intro vd wf evs m hv hstage hqs
    refine ⟨by simp [handler, hv, handlerAfterValidate, hstage, hqs], ?_⟩
    simp only [handler, hv, handlerAfterValidate, hstage, hqs]
    rw [List.all_eq_true]
    intro e he
    rcases List.mem_append.1 he with hp1 | hrest
    · obtain ⟨k, _, rfl⟩ := List.mem_map.1 hp1
      rfl
    · rcases List.mem_append.1 hrest with hu | hq
      · obtain ⟨nm, d, rfl⟩ :=
          imageStage_evs env vd.workflow vd.images _ evs hstage e hu
        rfl
      · rw [List.mem_singleton] at hq
        subst hq
        rfl
  · intro vd wf evs pid hv hstage hqs
    have htr : ∀ (n : Nat) (e : Event),
        e ∈ (List.range
            (check_serverAux probe 0 COMFY_API_AVAILABLE_MAX_RETRIES).2).map
              Event.probeGet
            ++ ((evs ++ [Event.queuePost wf])
              ++ (List.range n).map Event.historyGet) →
        (!isOutputEvent e) = true := by
      intro n e he
      rcases List.mem_append.1 he with hp1 | hrest
      · obtain ⟨k, _, rfl⟩ := List.mem_map.1 hp1
        rfl
      · rcases List.mem_append.1 hrest with hq | hh
        · rcases List.mem_append.1 hq with hu | hq2
          · obtain ⟨nm, d, rfl⟩ :=
              imageStage_evs env vd.workflow vd.images _ evs hstage e hu
            rfl
          · rw [List.mem_singleton] at hq2
            subst hq2
            rfl
        · obtain ⟨k, _, rfl⟩ := List.mem_map.1 hh
          rfl
    constructor
    · intro m n hpl
      refine ⟨by simp [handler, hv, handlerAfterValidate, hstage, hqs, hpl], ?_⟩
      simp only [handler, hv, handlerAfterValidate, hstage, hqs, hpl]
      rw [List.all_eq_true]
      exact fun e he => htr n e he
    · intro n hpl
      refine ⟨by simp [handler, hv, handlerAfterValidate, hstage, hqs, hpl], ?_⟩
      simp only [handler, hv, handlerAfterValidate, hstage, hqs, hpl]
      rw [List.all_eq_true]
      exact fun e he => htr n e he

/-- An environment in which every upload POST fails with HTTP 500. -/
def cexEnvC3 : Env := { witEnv with uploadStatus := fun _ => (500, "boom") }

/-- A well-formed job whose workflow has no inline-base64 node and which
supplies one image, so the handler takes the upload path. -/
def cexJobC3 : Job :=
  { id := "j1", input := .obj [("workflow", witWorkflow), ("images", .arr [imgW])] }

/-- Claim C3 counterexample: when the image-upload stage fails, the
handler returns the uploader's result dict `{"status": "error",
"message": ..., "details": [...]}` — a mapping with NO `"error"` key —
contradicting the claim that every stage failure produces a result
mapping containing an `error` key holding the failure message. -/
theorem claim_C3_counterexample :
    (handler cexEnvC3 (fun _ => some 200) cexJobC3).1
      = .ok (uploadResultObj "error" "Some images failed to upload"
          ["Error uploading a: boom"]) ∧
    JVal.get? (uploadResultObj "error" "Some images failed to upload"
        ["Error uploading a: boom"]) "error" = none :=
  ⟨rfl, rfl⟩

/-- The liveness probe used in concrete evaluations: reachable at once. -/
def witProbe : Nat → Option Nat := fun _ => some 200

/-- A well-formed job with an inline workflow and no images. -/
def witJob : Job := { id := "j1", input := .obj [("workflow", witWorkflow)] }

theorem claim_C3_error_shortcircuit_witness :
    (∃ r, (handler witEnv witProbe witJob).1 = .ok r) ∧
    (∀ m, validate_input witEnv witJob.input = .ok (.err m) →
      handler witEnv witProbe witJob = (.ok (errObj m), [])) ∧
    (∀ vd res evs, validate_input witEnv witJob.input = .ok (.ok vd) →
      imageStage witEnv vd.workflow vd.images = .ok (.abort res, evs) →
      (handler witEnv witProbe witJob).1 = .ok res ∧
      res.get? "status" = some (.str "error") ∧ res.get? "error" = none ∧
      (handler witEnv witProbe witJob).2.all (fun e => !isQueueOrLater e) = true) ∧
    (∀ vd wf evs m, validate_input witEnv witJob.input = .ok (.ok vd) →
      imageStage witEnv vd.workflow vd.images = .ok (.proceed wf, evs) →
      queueStage witEnv = .error m →
      (handler witEnv witProbe witJob).1
        = .ok (errObj ("Error queuing workflow: " ++ m)) ∧
      (handler witEnv witProbe witJob).2.all (fun e => !isPollOrLater e) = true) ∧
    (∀ vd wf evs pid, validate_input witEnv witJob.input = .ok (.ok vd) →
      imageStage witEnv vd.workflow vd.images = .ok (.proceed wf, evs) →
      queueStage witEnv = .ok pid →
      (∀ m n, pollLoop witEnv.fetchHistory pid witEnv.pollMax = .errored m n →
        (handler witEnv witProbe witJob).1
          = .ok (errObj ("Error waiting for image generation: " ++ m)) ∧
        (handler witEnv witProbe witJob).2.all (fun e => !isOutputEvent e) = true) ∧
      (∀ n, pollLoop witEnv.fetchHistory pid witEnv.pollMax = .exhausted n →
        (handler witEnv witProbe witJob).1
          = .ok (errObj "Max retries reached while waiting for image generation") ∧
        (handler witEnv witProbe witJob).2.all (fun e => !isOutputEvent e) = true)) :=
  claim_C3_error_shortcircuit witEnv witProbe witJob (by decide)
    (fun vd h => by
      rw [show validate_input witEnv witJob.input
          = Except.ok (VResult.ok ⟨witWorkflow, JVal.null⟩) from rfl] at h
      injection h with h1
      injection h1 with h2
      rw [← h2]
      decide)
    (fun k h hh => by
      rw [show witEnv.fetchHistory k = Except.ok (JVal.obj []) from rfl] at hh
      injection hh with h1
      rw [← h1]
      decide)
